import Mathlib

/-!
Shallow embedding of the sushi-sync seating scheduler
(`src/stores/simulation.ts`): data model, the `runSimulation` driver loop,
`findSuitableSeat`, and `getColorForFamily`, together with theorems checking
the specification's claims about them.

JS numbers that the engine uses as times, party sizes and identifiers are
modelled as `Nat` (the UI only ever produces non-negative integers); JS
`null`/`undefined` becomes `Option`; the insertion-ordered JS `Map` of
customer states becomes a list built with JS-`Map.set` semantics; in-place
mutation of the seat array becomes explicit list rebuilding that updates the
same position the JS code mutates.
-/

set_option maxRecDepth 100000

namespace SushiSync

/-- `SeatType` from `types.ts`: `'SINGLE' | '4P' | '6P'`. -/
inductive SeatType where
  | SINGLE
  | FOURP
  | SIXP
deriving DecidableEq, Repr

/-- `CustomerType` from `types.ts`. -/
inductive CustomerType where
  | INDIVIDUAL
  | FAMILY
  | WITH_BABY
  | WHEELCHAIR
deriving DecidableEq, Repr

/-- `CustomerStatus` from `types.ts`: `'WAITING' | 'SEATED' | 'LEFT'`. -/
inductive CStatus where
  | WAITING
  | SEATED
  | LEFT
deriving DecidableEq, Repr

/-- `SimulationEventType` from `types.ts`. -/
inductive EventType where
  | ARRIVAL
  | SEATED
  | LEFT
  | CONFLICT
  | WAITING
deriving DecidableEq, Repr

/-- `SeatConfig` from `types.ts` (the fields the engine reads). -/
structure SeatConfig where
  id : String
  type : SeatType
  canAttachBabyChair : Bool
  isWheelchairAccessible : Bool
deriving DecidableEq, Repr

/-- `CustomerConfig` from `types.ts`. -/
structure CustomerConfig where
  id : Nat
  familyId : Nat
  arrivalTime : Nat
  type : CustomerType
  partySize : Nat
  needsBabyChair : Bool
  needsWheelchair : Bool
  estimatedDiningTime : Nat
deriving DecidableEq, Repr

/-- `Seat` from `types.ts`. -/
structure Seat where
  id : String
  type : SeatType
  occupiedBy : Option Nat
  isBabyChairAttached : Bool
  isWheelchairAccessible : Bool
deriving DecidableEq, Repr

/-- `Customer` from `types.ts` (the record pushed onto `waitingQueue`). -/
structure Customer where
  id : Nat
  familyId : Nat
  type : CustomerType
  partySize : Nat
  needsBabyChair : Bool
  needsWheelchair : Bool
  arrivalTime : Nat
  estimatedDiningTime : Nat
  status : CStatus
  color : String
deriving DecidableEq, Repr

/-- `SimulationEvent` from `types.ts`. -/
structure SimulationEvent where
  timestamp : Nat
  type : EventType
  customerId : Nat
  familyId : Nat
  seatId : Option String
  message : String
deriving DecidableEq, Repr

/-- `SimulationFrame` from `types.ts`. -/
structure SimulationFrame where
  timestamp : Nat
  seats : List Seat
  waitingQueue : List Customer
  events : List SimulationEvent
deriving DecidableEq, Repr

/-- The per-customer record held in the `customerStates` JS `Map`. -/
structure CustState where
  config : CustomerConfig
  status : CStatus
  seatedTime : Option Nat
  seatId : Option String
deriving DecidableEq, Repr

/-- `getColorForFamily` (`simulation.ts` lines 322-328): fixed palette indexed
by `familyId % colors.length`. -/
def getColorForFamily (familyId : Nat) : String :=
  let colors := ["#FF7E67", "#B8D086", "#82AAFF", "#FFB347", "#DDA0DD",
    "#98FB98", "#F0E68C", "#FFA07A", "#87CEEB", "#DEB887"]
  colors.getD (familyId % colors.length) ""

/-- The capacity the engine computes from a seat's type
(`simulation.ts` lines 303-306: default 1, `'4P'` is 4, `'6P'` is 6). -/
def seatCapacity : SeatType → Nat
  | SeatType.SINGLE => 1
  | SeatType.FOURP => 4
  | SeatType.SIXP => 6

/-- The per-seat test inside the `findSuitableSeat` loop
(`simulation.ts` lines 297-316): skip occupied seats, look the seat's config
up by id, require sufficient capacity, wheelchair accessibility when needed,
and baby-chair capability when needed. -/
def seatMatches (seatConfigs : List SeatConfig) (customer : CustomerConfig)
    (seat : Seat) : Bool :=
  if seat.occupiedBy ≠ none then false
  else
    match seatConfigs.find? (fun c => c.id == seat.id) with
    | none => false
    | some config =>
      if seatCapacity seat.type < customer.partySize then false
      else if customer.needsWheelchair && !seat.isWheelchairAccessible then false
      else if customer.needsBabyChair && !config.canAttachBabyChair then false
      else true

/-- `findSuitableSeat` (`simulation.ts` lines 290-320): the first seat in the
configuration-list order passing `seatMatches`, or `null`. -/
def findSuitableSeat (seats : List Seat) (customer : CustomerConfig)
    (seatConfigs : List SeatConfig) : Option Seat :=
  seats.find? (seatMatches seatConfigs customer)

/-- The in-place mutation of the seat object returned by `findSuitableSeat`
(`simulation.ts` lines 246-250): walk the seat array, and on the first seat
passing the predicate set `occupiedBy` and, when the customer needs one,
attach the baby chair; return the chosen seat's id with the updated array. -/
def occupyFirst (p : Seat → Bool) (fid : Nat) (needsBaby : Bool) :
    List Seat → Option (String × List Seat)
  | [] => none
  | s :: rest =>
    if p s then
      some (s.id,
        ({ s with occupiedBy := some fid,
                  isBabyChairAttached := if needsBaby then true else s.isBabyChairAttached } : Seat) :: rest)
    else
      match occupyFirst p fid needsBaby rest with
      | none => none
      | some (sid, rest') => some (sid, s :: rest')

/-- The departure mutation (`simulation.ts` lines 221-225):
`seats.find(s => s.id === state.seatId)` and clearing of `occupiedBy` and
`isBabyChairAttached` on the first seat whose id matches; no seat matching
leaves the array unchanged. -/
def releaseSeatById : List Seat → String → List Seat
  | [], _ => []
  | s :: rest, sid =>
    if s.id == sid then
      ({ s with occupiedBy := none, isBabyChairAttached := false } : Seat) :: rest
    else
      s :: releaseSeatById rest sid

/-- `JS Map.set` on the insertion-ordered `customerStates` map keyed by
`config.id`: overwrite in place when the key exists, append otherwise. -/
def mapSet (m : List CustState) (v : CustState) : List CustState :=
  if m.any (fun st => st.config.id == v.config.id) then
    m.map (fun st => if st.config.id == v.config.id then v else st)
  else
    m ++ [v]

/-- `customerConfigs.forEach(c => customerStates.set(c.id, {config: c, status: 'WAITING'}))`
(`simulation.ts` lines 187-189). -/
def buildStates (customerConfigs : List CustomerConfig) : List CustState :=
  customerConfigs.foldl
    (fun m c => mapSet m { config := c, status := CStatus.WAITING, seatedTime := none, seatId := none })
    []

/-- Seat initialisation from config (`simulation.ts` lines 171-177). -/
def initSeats (seatConfigs : List SeatConfig) : List Seat :=
  seatConfigs.map (fun c =>
    { id := c.id, type := c.type, occupiedBy := none,
      isBabyChairAttached := false,
      isWheelchairAccessible := c.isWheelchairAccessible })

/-- Stable insertion used to model the stable JS
`[...customerConfigs].sort((a, b) => a.arrivalTime - b.arrivalTime)`:
an element is inserted before the first strictly-later arrival, so records
with equal arrival times keep their input order. -/
def insertByArrival (c : CustomerConfig) : List CustomerConfig → List CustomerConfig
  | [] => [c]
  | d :: rest =>
    if d.arrivalTime < c.arrivalTime then d :: insertByArrival c rest
    else c :: d :: rest

/-- `sortedCustomers` (`simulation.ts` line 192): stable sort by arrival time. -/
def sortByArrival (customerConfigs : List CustomerConfig) : List CustomerConfig :=
  customerConfigs.foldr insertByArrival []

/-- The `ARRIVAL` events pushed at the top of each tick
(`simulation.ts` lines 200-210). -/
def arrivalEvents (sorted : List CustomerConfig) (time : Nat) : List SimulationEvent :=
  (sorted.filter (fun c => c.arrivalTime == time)).map (fun c =>
    { timestamp := time, type := EventType.ARRIVAL, customerId := c.id,
      familyId := c.familyId, seatId := none,
      message := "Family " ++ toString c.familyId ++ " arrived (party of " ++ toString c.partySize ++ ")" })

/-- The mutable context threaded through one tick's `customerStates.forEach`:
the live seat array, the tick's event list, and the tick's waiting queue. -/
structure TickCtx where
  seats : List Seat
  events : List SimulationEvent
  waitingQueue : List Customer
deriving DecidableEq, Repr

/-- The `Customer` record pushed onto `waitingQueue` on a failed seating
attempt (`simulation.ts` lines 262-273). -/
def mkWaitingCustomer (c : CustomerConfig) : Customer :=
  { id := c.id, familyId := c.familyId, type := c.type, partySize := c.partySize,
    needsBabyChair := c.needsBabyChair, needsWheelchair := c.needsWheelchair,
    arrivalTime := c.arrivalTime, estimatedDiningTime := c.estimatedDiningTime,
    status := CStatus.WAITING, color := getColorForFamily c.familyId }

/-- The `LEFT` event (`simulation.ts` lines 226-233). -/
def mkLeftEvent (time : Nat) (st : CustState) : SimulationEvent :=
  { timestamp := time, type := EventType.LEFT, customerId := st.config.id,
    familyId := st.config.familyId, seatId := st.seatId,
    message := "Family " ++ toString st.config.familyId ++ " left seat " ++
      (match st.seatId with | some sid => sid | none => "undefined") }

/-- The `SEATED` event (`simulation.ts` lines 252-259). -/
def mkSeatedEvent (time : Nat) (st : CustState) (sid : String) : SimulationEvent :=
  { timestamp := time, type := EventType.SEATED, customerId := st.config.id,
    familyId := st.config.familyId, seatId := some sid,
    message := "Family " ++ toString st.config.familyId ++ " seated at " ++ sid }

/-- The body of `customerStates.forEach` for one customer
(`simulation.ts` lines 213-276).  The JS code first runs the departure check
(only applicable when the status is `SEATED` with a recorded seating time) and
then the seating check (only applicable when the status is still `WAITING`);
since a departure leaves the status `LEFT` and a seated customer is never
`WAITING`, the two checks are disjoint and are modelled as one match on the
status. -/
def stepCustomer (seatConfigs : List SeatConfig) (time : Nat)
    (ctx : TickCtx) (st : CustState) : TickCtx × CustState :=
  match st.status with
  | CStatus.LEFT => (ctx, st)
  | CStatus.SEATED =>
    match st.seatedTime with
    | none => (ctx, st)
    | some s =>
      if s + st.config.estimatedDiningTime ≤ time then
        let seats :=
          match st.seatId with
          | none => ctx.seats
          | some sid => releaseSeatById ctx.seats sid
        ({ ctx with seats := seats, events := ctx.events ++ [mkLeftEvent time st] },
         { st with status := CStatus.LEFT })
      else (ctx, st)
  | CStatus.WAITING =>
    if st.config.arrivalTime ≤ time then
      match occupyFirst (seatMatches seatConfigs st.config) st.config.familyId
          st.config.needsBabyChair ctx.seats with
      | some (sid, seats') =>
        ({ ctx with seats := seats', events := ctx.events ++ [mkSeatedEvent time st sid] },
         { st with status := CStatus.SEATED, seatedTime := some time, seatId := some sid })
      | none =>
        ({ ctx with waitingQueue := ctx.waitingQueue ++ [mkWaitingCustomer st.config] }, st)
    else (ctx, st)

/-- `customerStates.forEach` over the whole insertion-ordered map:
process each state in order, threading the tick context, and collect the
updated states in the same order. -/
def processAll (seatConfigs : List SeatConfig) (time : Nat) :
    TickCtx → List CustState → TickCtx × List CustState
  | ctx, [] => (ctx, [])
  | ctx, st :: rest =>
    let p := stepCustomer seatConfigs time ctx st
    let q := processAll seatConfigs time p.1 rest
    (q.1, p.2 :: q.2)

/-- One iteration of the driver loop (`simulation.ts` lines 195-285):
arrival events, the `forEach` over customer states, and the frame snapshot. -/
def runTick (seatConfigs : List SeatConfig) (sorted : List CustomerConfig)
    (time : Nat) (seats : List Seat) (states : List CustState) :
    List Seat × List CustState × SimulationFrame :=
  let ctx0 : TickCtx := { seats := seats, events := arrivalEvents sorted time, waitingQueue := [] }
  let r := processAll seatConfigs time ctx0 states
  (r.1.seats, r.2,
   { timestamp := time, seats := r.1.seats, waitingQueue := r.1.waitingQueue, events := r.1.events })

/-- `maxTime` (`simulation.ts` lines 165-168):
`Math.max(...customerConfigs.map(c => c.arrivalTime + c.estimatedDiningTime), 100)`. -/
def maxTime (customerConfigs : List CustomerConfig) : Nat :=
  (customerConfigs.map (fun c => c.arrivalTime + c.estimatedDiningTime)).foldl max 100

/-- State of the run after the first `n` ticks (times `0 .. n-1`):
the live seat array, the customer-state map, and the frames emitted so far. -/
def simSteps (seatConfigs : List SeatConfig) (customerConfigs : List CustomerConfig) :
    Nat → List Seat × List CustState × List SimulationFrame
  | 0 => (initSeats seatConfigs, buildStates customerConfigs, [])
  | n + 1 =>
    let prev := simSteps seatConfigs customerConfigs n
    let r := runTick seatConfigs (sortByArrival customerConfigs) n prev.1 prev.2.1
    (r.1, r.2.1, prev.2.2 ++ [r.2.2])

/-- The seat array entering tick `n` (equivalently, after tick `n - 1`). -/
def seatsAt (seatConfigs : List SeatConfig) (customerConfigs : List CustomerConfig)
    (n : Nat) : List Seat :=
  (simSteps seatConfigs customerConfigs n).1

/-- The customer-state map entering tick `n`. -/
def statesAt (seatConfigs : List SeatConfig) (customerConfigs : List CustomerConfig)
    (n : Nat) : List CustState :=
  (simSteps seatConfigs customerConfigs n).2.1

/-- The frames emitted by the first `n` ticks. -/
def framesUpTo (seatConfigs : List SeatConfig) (customerConfigs : List CustomerConfig)
    (n : Nat) : List SimulationFrame :=
  (simSteps seatConfigs customerConfigs n).2.2

/-- `runSimulation` (`simulation.ts` lines 160-288): run the driver loop for
`time = 0 .. maxTime` and return the frame list. -/
def runSimulation (seatConfigs : List SeatConfig)
    (customerConfigs : List CustomerConfig) : List SimulationFrame :=
  framesUpTo seatConfigs customerConfigs (maxTime customerConfigs + 1)

/-! ## Concrete configurations used by the scenario theorems -/

/-- A pool with one single seat. -/
def poolSingle : List SeatConfig :=
  [{ id := "S1", type := SeatType.SINGLE, canAttachBabyChair := false,
     isWheelchairAccessible := false }]

/-- One family: party of 1, arrival 0, dining duration 10 (spec Scenario A). -/
def famSolo : List CustomerConfig :=
  [{ id := 1, familyId := 1, arrivalTime := 0, type := CustomerType.INDIVIDUAL,
     partySize := 1, needsBabyChair := false, needsWheelchair := false,
     estimatedDiningTime := 10 }]

/-- Three identical-requirement families: family 1 occupies the seat until
tick 10; family 2 is second in the input list but arrives at 5; family 3 is
third in the list but arrives at 3. -/
def famsListOrder : List CustomerConfig :=
  [{ id := 1, familyId := 1, arrivalTime := 0, type := CustomerType.INDIVIDUAL,
     partySize := 1, needsBabyChair := false, needsWheelchair := false,
     estimatedDiningTime := 10 },
   { id := 2, familyId := 2, arrivalTime := 5, type := CustomerType.INDIVIDUAL,
     partySize := 1, needsBabyChair := false, needsWheelchair := false,
     estimatedDiningTime := 10 },
   { id := 3, familyId := 3, arrivalTime := 3, type := CustomerType.INDIVIDUAL,
     partySize := 1, needsBabyChair := false, needsWheelchair := false,
     estimatedDiningTime := 10 }]

/-- A waiting family listed before the departing family: family 1 waits from
tick 1; family 2 dines on the only seat from tick 0 until tick 10. -/
def famsWaitBeforeDepart : List CustomerConfig :=
  [{ id := 1, familyId := 1, arrivalTime := 1, type := CustomerType.INDIVIDUAL,
     partySize := 1, needsBabyChair := false, needsWheelchair := false,
     estimatedDiningTime := 5 },
   { id := 2, familyId := 2, arrivalTime := 0, type := CustomerType.INDIVIDUAL,
     partySize := 1, needsBabyChair := false, needsWheelchair := false,
     estimatedDiningTime := 10 }]

/-- Two identical families arriving at 0 competing for the single seat. -/
def famsTwoAtZero : List CustomerConfig :=
  [{ id := 1, familyId := 1, arrivalTime := 0, type := CustomerType.INDIVIDUAL,
     partySize := 1, needsBabyChair := false, needsWheelchair := false,
     estimatedDiningTime := 20 },
   { id := 2, familyId := 2, arrivalTime := 0, type := CustomerType.INDIVIDUAL,
     partySize := 1, needsBabyChair := false, needsWheelchair := false,
     estimatedDiningTime := 20 }]

/-- Two families of sixty-minute dinners for the single seat: the second is
seated at tick 60 and its departure time 120 lies beyond the horizon 100. -/
def famsLongDinners : List CustomerConfig :=
  [{ id := 1, familyId := 1, arrivalTime := 0, type := CustomerType.INDIVIDUAL,
     partySize := 1, needsBabyChair := false, needsWheelchair := false,
     estimatedDiningTime := 60 },
   { id := 2, familyId := 2, arrivalTime := 0, type := CustomerType.INDIVIDUAL,
     partySize := 1, needsBabyChair := false, needsWheelchair := false,
     estimatedDiningTime := 60 }]

/-- A pool listing a six-person table before a single seat. -/
def poolSixThenSingle : List SeatConfig :=
  [{ id := "T6", type := SeatType.SIXP, canAttachBabyChair := false,
     isWheelchairAccessible := false },
   { id := "S1", type := SeatType.SINGLE, canAttachBabyChair := false,
     isWheelchairAccessible := false }]

/-- A lone diner (party of 1). -/
def custSolo : CustomerConfig :=
  { id := 1, familyId := 1, arrivalTime := 0, type := CustomerType.INDIVIDUAL,
    partySize := 1, needsBabyChair := false, needsWheelchair := false,
    estimatedDiningTime := 10 }

/-- Two baby-chair-capable four-person tables. -/
def poolTwoBaby : List SeatConfig :=
  [{ id := "B1", type := SeatType.FOURP, canAttachBabyChair := true,
     isWheelchairAccessible := false },
   { id := "B2", type := SeatType.FOURP, canAttachBabyChair := true,
     isWheelchairAccessible := false }]

/-- Two simultaneously-arriving families that each need one baby chair
(spec Scenario D with `babyChairsMax = 1`). -/
def famsTwoBabies : List CustomerConfig :=
  [{ id := 1, familyId := 1, arrivalTime := 0, type := CustomerType.WITH_BABY,
     partySize := 2, needsBabyChair := true, needsWheelchair := false,
     estimatedDiningTime := 10 },
   { id := 2, familyId := 2, arrivalTime := 0, type := CustomerType.WITH_BABY,
     partySize := 2, needsBabyChair := true, needsWheelchair := false,
     estimatedDiningTime := 10 }]

/-! ## Helper lemmas about the engine's building blocks -/

def occSeat (fid : Nat) (needsBaby : Bool) (s : Seat) : Seat :=
  { s with occupiedBy := some fid,
           isBabyChairAttached := if needsBaby then true else s.isBabyChairAttached }

def clearSeat (s : Seat) : Seat :=
  { s with occupiedBy := none, isBabyChairAttached := false }

theorem find?_eq_some_split {α : Type} (p : α → Bool) :
    ∀ (l : List α) (a : α), l.find? p = some a →
      p a = true ∧ ∃ l₁ l₂, l = l₁ ++ a :: l₂ ∧ ∀ x ∈ l₁, p x = false := by
  intro l
  induction l with
  | nil => intro a h; simp [List.find?] at h
  | cons b t ih =>
    intro a h
    cases hb : p b with
    | true =>
      rw [List.find?_cons_of_pos _ hb] at h
      obtain rfl : b = a := by injection h
      exact ⟨hb, [], t, rfl, by simp⟩
    | false =>
      rw [List.find?_cons_of_neg _ (by simp [hb])] at h
      obtain ⟨hpa, l₁, l₂, rfl, hl₁⟩ := ih a h
      refine ⟨hpa, b :: l₁, l₂, rfl, ?_⟩
      intro x hx
      rcases List.mem_cons.mp hx with rfl | hx
      · exact hb
      · exact hl₁ x hx

theorem occupyFirst_cons_true (p : Seat → Bool) (fid : Nat) (b : Bool) (s : Seat)
    (t : List Seat) (hs : p s = true) :
    occupyFirst p fid b (s :: t) = some (s.id, occSeat fid b s :: t) := by
  simp [occupyFirst, hs, occSeat]

theorem occupyFirst_cons_false (p : Seat → Bool) (fid : Nat) (b : Bool) (s : Seat)
    (t : List Seat) (hs : p s = false) :
    occupyFirst p fid b (s :: t) =
      match occupyFirst p fid b t with
      | none => none
      | some (sid, rest') => some (sid, s :: rest') := by
  simp [occupyFirst, hs]

theorem occupyFirst_eq_none_iff (p : Seat → Bool) (fid : Nat) (b : Bool) :
    ∀ l : List Seat, occupyFirst p fid b l = none ↔ ∀ x ∈ l, p x = false := by
  intro l
  induction l with
  | nil => simp [occupyFirst]
  | cons s t ih =>
    cases hs : p s with
    | true =>
      rw [occupyFirst_cons_true p fid b s t hs]
      simp only [List.forall_mem_cons, hs]
      simp
    | false =>
      rw [occupyFirst_cons_false p fid b s t hs]
      rcases hocc : occupyFirst p fid b t with _ | pr
      · simp only [List.forall_mem_cons, hs, ← ih, hocc]
        simp
      · simp only [List.forall_mem_cons, hs, ← ih, hocc]
        simp

theorem occupyFirst_append (p : Seat → Bool) (fid : Nat) (b : Bool) :
    ∀ (l₁ : List Seat) (u : Seat) (l₂ : List Seat),
      (∀ x ∈ l₁, p x = false) → p u = true →
      occupyFirst p fid b (l₁ ++ u :: l₂) = some (u.id, l₁ ++ occSeat fid b u :: l₂) := by
  intro l₁
  induction l₁ with
  | nil =>
    intro u l₂ _ hu
    simpa using occupyFirst_cons_true p fid b u l₂ hu
  | cons s t ih =>
    intro u l₂ hfalse hu
    have hs : p s = false := hfalse s (List.mem_cons_self _ _)
    have ht : ∀ x ∈ t, p x = false := fun x hx => hfalse x (List.mem_cons_of_mem _ hx)
    rw [List.cons_append, occupyFirst_cons_false p fid b s _ hs, ih u l₂ ht hu]
    rfl

theorem occupyFirst_eq_some_split (p : Seat → Bool) (fid : Nat) (b : Bool) :
    ∀ (l : List Seat) (sid : String) (l' : List Seat),
      occupyFirst p fid b l = some (sid, l') →
      ∃ l₁ u l₂, l = l₁ ++ u :: l₂ ∧ (∀ x ∈ l₁, p x = false) ∧ p u = true ∧
        sid = u.id ∧ l' = l₁ ++ occSeat fid b u :: l₂ := by
  intro l
  induction l with
  | nil => intro sid l' h; simp [occupyFirst] at h
  | cons s t ih =>
    intro sid l' h
    cases hs : p s with
    | true =>
      rw [occupyFirst_cons_true p fid b s t hs] at h
      injection h with h'
      injection h' with h1 h2
      exact ⟨[], s, t, rfl, by simp, hs, h1.symm, h2.symm⟩
    | false =>
      rw [occupyFirst_cons_false p fid b s t hs] at h
      rcases hocc : occupyFirst p fid b t with _ | ⟨sid', rest'⟩
      · rw [hocc] at h; cases h
      · rw [hocc] at h
        injection h with h'
        injection h' with h1 h2
        obtain ⟨l₁, u, l₂, rfl, hfalse, hu, hsid, hrest⟩ := ih sid' rest' hocc
        refine ⟨s :: l₁, u, l₂, rfl, ?_, hu, by rw [← h1, hsid], ?_⟩
        · intro x hx
          rcases List.mem_cons.mp hx with rfl | hx
          · exact hs
          · exact hfalse x hx
        · rw [← h2, hrest, List.cons_append]

theorem occupyFirst_map_id (p : Seat → Bool) (fid : Nat) (b : Bool)
    (l : List Seat) (sid : String) (l' : List Seat)
    (h : occupyFirst p fid b l = some (sid, l')) :
    l'.map Seat.id = l.map Seat.id := by
  obtain ⟨l₁, u, l₂, rfl, _, _, _, rfl⟩ := occupyFirst_eq_some_split p fid b l sid l' h
  simp [occSeat]

theorem releaseSeatById_cons_true (sid : String) (s : Seat) (t : List Seat)
    (hs : s.id = sid) : releaseSeatById (s :: t) sid = clearSeat s :: t := by
  simp [releaseSeatById, hs, clearSeat]

theorem releaseSeatById_cons_false (sid : String) (s : Seat) (t : List Seat)
    (hs : s.id ≠ sid) : releaseSeatById (s :: t) sid = s :: releaseSeatById t sid := by
  simp [releaseSeatById, hs]

theorem releaseSeatById_append (sid : String) :
    ∀ (l₁ : List Seat) (u : Seat) (l₂ : List Seat),
      (∀ x ∈ l₁, x.id ≠ sid) → u.id = sid →
      releaseSeatById (l₁ ++ u :: l₂) sid = l₁ ++ clearSeat u :: l₂ := by
  intro l₁
  induction l₁ with
  | nil =>
    intro u l₂ _ hu
    simpa using releaseSeatById_cons_true sid u l₂ hu
  | cons s t ih =>
    intro u l₂ hne hu
    have hs : s.id ≠ sid := hne s (List.mem_cons_self _ _)
    have ht : ∀ x ∈ t, x.id ≠ sid := fun x hx => hne x (List.mem_cons_of_mem _ hx)
    rw [List.cons_append, releaseSeatById_cons_false sid s _ hs, ih u l₂ ht hu,
      List.cons_append]

theorem releaseSeatById_map_id (sid : String) :
    ∀ l : List Seat, (releaseSeatById l sid).map Seat.id = l.map Seat.id := by
  intro l
  induction l with
  | nil => rfl
  | cons s t ih =>
    by_cases hs : s.id = sid
    · rw [releaseSeatById_cons_true sid s t hs]; simp [clearSeat]
    · rw [releaseSeatById_cons_false sid s t hs]; simp [ih]

theorem releaseSeatById_not_found (sid : String) :
    ∀ l : List Seat, (∀ x ∈ l, x.id ≠ sid) → releaseSeatById l sid = l := by
  intro l
  induction l with
  | nil => intro _; rfl
  | cons s t ih =>
    intro h
    rw [releaseSeatById_cons_false sid s t (h s (List.mem_cons_self _ _)),
      ih (fun x hx => h x (List.mem_cons_of_mem _ hx))]

/-- Complete case analysis of one `customerStates.forEach` body execution:
either the state is untouched (terminal, still dining, or not yet arrived),
or the customer departs, is seated, or is pushed onto the waiting queue. -/
theorem stepCustomer_spec (cfg : List SeatConfig) (time : Nat) (ctx : TickCtx)
    (st : CustState) :
    (stepCustomer cfg time ctx st = (ctx, st) ∧
      (st.status = CStatus.LEFT ∨
       (st.status = CStatus.SEATED ∧ (st.seatedTime = none ∨
         ∃ s, st.seatedTime = some s ∧ time < s + st.config.estimatedDiningTime)) ∨
       (st.status = CStatus.WAITING ∧ time < st.config.arrivalTime)))
    ∨
    (∃ s, st.status = CStatus.SEATED ∧ st.seatedTime = some s ∧
      s + st.config.estimatedDiningTime ≤ time ∧
      stepCustomer cfg time ctx st =
        ({ ctx with
            seats := (match st.seatId with
              | none => ctx.seats
              | some sid => releaseSeatById ctx.seats sid),
            events := ctx.events ++ [mkLeftEvent time st] },
         { st with status := CStatus.LEFT }))
    ∨
    (∃ sid seats', st.status = CStatus.WAITING ∧ st.config.arrivalTime ≤ time ∧
      occupyFirst (seatMatches cfg st.config) st.config.familyId
        st.config.needsBabyChair ctx.seats = some (sid, seats') ∧
      stepCustomer cfg time ctx st =
        ({ ctx with seats := seats', events := ctx.events ++ [mkSeatedEvent time st sid] },
         { st with status := CStatus.SEATED, seatedTime := some time, seatId := some sid }))
    ∨
    (st.status = CStatus.WAITING ∧ st.config.arrivalTime ≤ time ∧
      occupyFirst (seatMatches cfg st.config) st.config.familyId
        st.config.needsBabyChair ctx.seats = none ∧
      stepCustomer cfg time ctx st =
        ({ ctx with waitingQueue := ctx.waitingQueue ++ [mkWaitingCustomer st.config] }, st)) := by
  obtain ⟨c, status, stime, sid⟩ := st
  cases status with
  | LEFT => exact Or.inl ⟨rfl, Or.inl rfl⟩
  | SEATED =>
    cases stime with
    | none => exact Or.inl ⟨rfl, Or.inr (Or.inl ⟨rfl, Or.inl rfl⟩)⟩
    | some s =>
      by_cases hd : s + c.estimatedDiningTime ≤ time
      · refine Or.inr (Or.inl ⟨s, rfl, rfl, hd, ?_⟩)
        simp [stepCustomer, hd]
      · refine Or.inl ⟨?_, Or.inr (Or.inl ⟨rfl, Or.inr ⟨s, rfl, ?_⟩⟩)⟩
        · simp [stepCustomer, hd]
        · show time < s + c.estimatedDiningTime
          omega
  | WAITING =>
    by_cases ha : c.arrivalTime ≤ time
    · rcases hocc : occupyFirst (seatMatches cfg c) c.familyId c.needsBabyChair ctx.seats
        with _ | ⟨sid', seats'⟩
      · refine Or.inr (Or.inr (Or.inr ⟨rfl, ha, rfl, ?_⟩))
        simp [stepCustomer, ha, hocc]
      · refine Or.inr (Or.inr (Or.inl ⟨sid', seats', rfl, ha, rfl, ?_⟩))
        simp [stepCustomer, ha, hocc]
    · refine Or.inl ⟨?_, Or.inr (Or.inr ⟨rfl, ?_⟩)⟩
      · simp [stepCustomer, ha]
      · show time < c.arrivalTime
        omega

theorem stepCustomer_config (cfg : List SeatConfig) (time : Nat) (ctx : TickCtx)
    (st : CustState) : ((stepCustomer cfg time ctx st).2).config = st.config := by
  rcases stepCustomer_spec cfg time ctx st with ⟨h, _⟩ | ⟨s, _, _, _, h⟩ |
    ⟨sid, seats', _, _, _, h⟩ | ⟨_, _, _, h⟩ <;> rw [h]

theorem stepCustomer_seatIds (cfg : List SeatConfig) (time : Nat) (ctx : TickCtx)
    (st : CustState) :
    ((stepCustomer cfg time ctx st).1).seats.map Seat.id = ctx.seats.map Seat.id := by
  rcases stepCustomer_spec cfg time ctx st with ⟨h, _⟩ | ⟨s, _, _, _, h⟩ |
    ⟨sid, seats', _, _, hocc, h⟩ | ⟨_, _, _, h⟩ <;> rw [h]
  · rcases hsid : st.seatId with _ | sid
    · simp
    · simp [releaseSeatById_map_id]
  · exact occupyFirst_map_id _ _ _ _ _ _ hocc

theorem stepCustomer_events (cfg : List SeatConfig) (time : Nat) (ctx : TickCtx)
    (st : CustState) :
    ∃ e, ((stepCustomer cfg time ctx st).1).events = ctx.events ++ e ∧
      ∀ ev ∈ e, ev.type = EventType.LEFT ∨ ev.type = EventType.SEATED := by
  rcases stepCustomer_spec cfg time ctx st with ⟨h, _⟩ | ⟨s, _, _, _, h⟩ |
    ⟨sid, seats', _, _, _, h⟩ | ⟨_, _, _, h⟩ <;> rw [h]
  · exact ⟨[], by simp, by simp⟩
  · exact ⟨[mkLeftEvent time st], rfl, by simp [mkLeftEvent]⟩
  · exact ⟨[mkSeatedEvent time st sid], rfl, by simp [mkSeatedEvent]⟩
  · exact ⟨[], by simp, by simp⟩

theorem stepCustomer_queue (cfg : List SeatConfig) (time : Nat) (ctx : TickCtx)
    (st : CustState) :
    ∃ q, ((stepCustomer cfg time ctx st).1).waitingQueue = ctx.waitingQueue ++ q := by
  rcases stepCustomer_spec cfg time ctx st with ⟨h, _⟩ | ⟨s, _, _, _, h⟩ |
    ⟨sid, seats', _, _, _, h⟩ | ⟨_, _, _, h⟩ <;> rw [h]
  · exact ⟨[], by simp⟩
  · exact ⟨[], by simp⟩
  · exact ⟨[], by simp⟩
  · exact ⟨[mkWaitingCustomer st.config], rfl⟩

theorem processAll_configs (cfg : List SeatConfig) (time : Nat) :
    ∀ (l : List CustState) (ctx : TickCtx),
      ((processAll cfg time ctx l).2).map CustState.config = l.map CustState.config := by
  intro l
  induction l with
  | nil => intro ctx; rfl
  | cons st rest ih =>
    intro ctx
    simp only [processAll, List.map_cons, ih, stepCustomer_config]

theorem processAll_seatIds (cfg : List SeatConfig) (time : Nat) :
    ∀ (l : List CustState) (ctx : TickCtx),
      ((processAll cfg time ctx l).1).seats.map Seat.id = ctx.seats.map Seat.id := by
  intro l
  induction l with
  | nil => intro ctx; rfl
  | cons st rest ih =>
    intro ctx
    simp only [processAll]
    rw [ih, stepCustomer_seatIds]

theorem processAll_events (cfg : List SeatConfig) (time : Nat) :
    ∀ (l : List CustState) (ctx : TickCtx),
      ∃ e, ((processAll cfg time ctx l).1).events = ctx.events ++ e ∧
        ∀ ev ∈ e, ev.type = EventType.LEFT ∨ ev.type = EventType.SEATED := by
  intro l
  induction l with
  | nil => intro ctx; exact ⟨[], by simp [processAll], by simp⟩
  | cons st rest ih =>
    intro ctx
    obtain ⟨e₁, he₁, ht₁⟩ := stepCustomer_events cfg time ctx st
    obtain ⟨e₂, he₂, ht₂⟩ := ih (stepCustomer cfg time ctx st).1
    refine ⟨e₁ ++ e₂, ?_, ?_⟩
    · simp only [processAll]
      rw [he₂, he₁, List.append_assoc]
    · intro ev hev
      rcases List.mem_append.mp hev with h | h
      · exact ht₁ ev h
      · exact ht₂ ev h

theorem processAll_queue (cfg : List SeatConfig) (time : Nat) :
    ∀ (l : List CustState) (ctx : TickCtx),
      ∃ q, ((processAll cfg time ctx l).1).waitingQueue = ctx.waitingQueue ++ q := by
  intro l
  induction l with
  | nil => intro ctx; exact ⟨[], by simp [processAll]⟩
  | cons st rest ih =>
    intro ctx
    obtain ⟨q₁, hq₁⟩ := stepCustomer_queue cfg time ctx st
    obtain ⟨q₂, hq₂⟩ := ih (stepCustomer cfg time ctx st).1
    refine ⟨q₁ ++ q₂, ?_⟩
    simp only [processAll]
    rw [hq₂, hq₁, List.append_assoc]

/-- The frame emitted by tick `n`. -/
def tickFrameAt (sc : List SeatConfig) (cc : List CustomerConfig) (n : Nat) :
    SimulationFrame :=
  (runTick sc (sortByArrival cc) n (seatsAt sc cc n) (statesAt sc cc n)).2.2

theorem framesUpTo_succ (sc : List SeatConfig) (cc : List CustomerConfig) (n : Nat) :
    framesUpTo sc cc (n + 1) = framesUpTo sc cc n ++ [tickFrameAt sc cc n] := rfl

theorem seatsAt_succ (sc : List SeatConfig) (cc : List CustomerConfig) (n : Nat) :
    seatsAt sc cc (n + 1) =
      (runTick sc (sortByArrival cc) n (seatsAt sc cc n) (statesAt sc cc n)).1 := rfl

theorem statesAt_succ (sc : List SeatConfig) (cc : List CustomerConfig) (n : Nat) :
    statesAt sc cc (n + 1) =
      (runTick sc (sortByArrival cc) n (seatsAt sc cc n) (statesAt sc cc n)).2.1 := rfl

theorem tickFrameAt_timestamp (sc : List SeatConfig) (cc : List CustomerConfig)
    (n : Nat) : (tickFrameAt sc cc n).timestamp = n := rfl

theorem tickFrameAt_seats (sc : List SeatConfig) (cc : List CustomerConfig)
    (n : Nat) : (tickFrameAt sc cc n).seats = seatsAt sc cc (n + 1) := rfl

theorem framesUpTo_length (sc : List SeatConfig) (cc : List CustomerConfig) :
    ∀ n, (framesUpTo sc cc n).length = n := by
  intro n
  induction n with
  | zero => rfl
  | succ m ih => rw [framesUpTo_succ, List.length_append, ih]; rfl

theorem framesUpTo_get? (sc : List SeatConfig) (cc : List CustomerConfig) :
    ∀ n i, i < n → (framesUpTo sc cc n).get? i = some (tickFrameAt sc cc i) := by
  intro n
  induction n with
  | zero => intro i hi; omega
  | succ m ih =>
    intro i hi
    rw [framesUpTo_succ]
    by_cases him : i < m
    · rw [List.get?_append (by rw [framesUpTo_length]; exact him)]
      exact ih i him
    · have : i = m := by omega
      subst this
      rw [List.get?_append_right (by rw [framesUpTo_length])]
      rw [framesUpTo_length]
      simp

theorem framesUpTo_prefix (sc : List SeatConfig) (cc : List CustomerConfig) :
    ∀ n m, n ≤ m → (framesUpTo sc cc n).IsPrefix (framesUpTo sc cc m) := by
  intro n m h
  induction m with
  | zero =>
    have : n = 0 := by omega
    subst this
    exact List.prefix_refl _
  | succ k ih =>
    by_cases hnk : n ≤ k
    · exact (ih hnk).trans (by rw [framesUpTo_succ]; exact List.prefix_append _ _)
    · have : n = k + 1 := by omega
      subst this
      exact List.prefix_refl _

theorem runSimulation_eq (sc : List SeatConfig) (cc : List CustomerConfig) :
    runSimulation sc cc = framesUpTo sc cc (maxTime cc + 1) := rfl

theorem runSimulation_get? (sc : List SeatConfig) (cc : List CustomerConfig)
    (t : Nat) (fr : SimulationFrame) (h : (runSimulation sc cc).get? t = some fr) :
    t ≤ maxTime cc ∧ fr = tickFrameAt sc cc t := by
  have hlt : t < maxTime cc + 1 := by
    by_contra hc
    have hnone : (runSimulation sc cc).get? t = none := by
      apply List.get?_eq_none.mpr
      rw [runSimulation_eq, framesUpTo_length]
      omega
    rw [hnone] at h
    cases h
  constructor
  · omega
  · rw [runSimulation_eq, framesUpTo_get? sc cc _ t hlt] at h
    injection h with h
    exact h.symm

theorem foldl_max_init_le : ∀ (l : List Nat) (init : Nat), init ≤ l.foldl max init := by
  intro l
  induction l with
  | nil => intro init; exact Nat.le_refl _
  | cons a t ih =>
    intro init
    calc init ≤ max init a := Nat.le_max_left _ _
    _ ≤ t.foldl max (max init a) := ih _

theorem foldl_max_mem_le : ∀ (l : List Nat) (init : Nat), ∀ x ∈ l, x ≤ l.foldl max init := by
  intro l
  induction l with
  | nil => intro init x hx; cases hx
  | cons a t ih =>
    intro init x hx
    rcases List.mem_cons.mp hx with rfl | hx
    · calc x ≤ max init x := Nat.le_max_right _ _
      _ ≤ t.foldl max (max init x) := foldl_max_init_le _ _
    · exact ih _ x hx

theorem maxTime_bound (cc : List CustomerConfig) (c : CustomerConfig) (hc : c ∈ cc) :
    c.arrivalTime + c.estimatedDiningTime ≤ maxTime cc := by
  exact foldl_max_mem_le _ 100 _ (List.mem_map_of_mem _ hc)

theorem mapSet_mem (m : List CustState) (v st : CustState)
    (h : st ∈ mapSet m v) : st ∈ m ∨ st = v := by
  unfold mapSet at h
  by_cases hany : m.any (fun st => st.config.id == v.config.id)
  · rw [if_pos hany] at h
    obtain ⟨x, hx, hxe⟩ := List.mem_map.mp h
    by_cases hid : x.config.id == v.config.id
    · rw [if_pos hid] at hxe; exact Or.inr hxe.symm
    · rw [if_neg hid] at hxe; exact Or.inl (hxe ▸ hx)
  · rw [if_neg hany] at h
    rcases List.mem_append.mp h with h | h
    · exact Or.inl h
    · exact Or.inr (List.mem_singleton.mp h)

theorem buildStates_mem (cc : List CustomerConfig) :
    ∀ st ∈ buildStates cc, st.status = CStatus.WAITING ∧ st.seatedTime = none ∧
      st.seatId = none := by
  unfold buildStates
  suffices h : ∀ (l : List CustomerConfig) (m : List CustState),
      (∀ st ∈ m, st.status = CStatus.WAITING ∧ st.seatedTime = none ∧ st.seatId = none) →
      ∀ st ∈ l.foldl (fun m c =>
        mapSet m { config := c, status := CStatus.WAITING, seatedTime := none, seatId := none }) m,
        st.status = CStatus.WAITING ∧ st.seatedTime = none ∧ st.seatId = none by
    exact h cc [] (by intro st hst; cases hst)
  intro l
  induction l with
  | nil => intro m hm st hst; exact hm st hst
  | cons c t ih =>
    intro m hm st hst
    refine ih _ ?_ st hst
    intro x hx
    rcases mapSet_mem _ _ _ hx with h | rfl
    · exact hm x h
    · exact ⟨rfl, rfl, rfl⟩

theorem buildStates_eq_map (cc : List CustomerConfig)
    (h : (cc.map CustomerConfig.id).Nodup) :
    buildStates cc = cc.map (fun c =>
      { config := c, status := CStatus.WAITING, seatedTime := none, seatId := none }) := by
  unfold buildStates
  suffices hgen : ∀ (l : List CustomerConfig) (m : List CustState),
      (l.map CustomerConfig.id).Nodup →
      (∀ c ∈ l, ∀ st ∈ m, st.config.id ≠ c.id) →
      l.foldl (fun m c =>
        mapSet m { config := c, status := CStatus.WAITING, seatedTime := none, seatId := none }) m =
      m ++ l.map (fun c =>
        { config := c, status := CStatus.WAITING, seatedTime := none, seatId := none }) by
    rw [hgen cc [] h (by intro c _ st hst; cases hst)]
    rfl
  intro l
  induction l with
  | nil => intro m _ _; simp
  | cons c t ih =>
    intro m hnd hdisj
    obtain ⟨hhead, htail⟩ : (∀ x ∈ t, ¬ x.id = c.id) ∧ (t.map CustomerConfig.id).Nodup := by
      simpa using hnd
    have hnotin : ¬ m.any (fun st => st.config.id == c.id) := by
      simp only [List.any_eq_true, beq_iff_eq, not_exists, not_and]
      intro st hst
      exact hdisj c (List.mem_cons_self _ _) st hst
    have hstep : mapSet m
        { config := c, status := CStatus.WAITING, seatedTime := none, seatId := none } =
        m ++ [{ config := c, status := CStatus.WAITING, seatedTime := none, seatId := none }] := by
      unfold mapSet
      rw [if_neg hnotin]
    simp only [List.foldl_cons, hstep]
    rw [ih (m ++ [_]) htail ?_]
    · simp
    · intro c' hc' st hst
      rcases List.mem_append.mp hst with h | h
      · exact hdisj c' (List.mem_cons_of_mem _ hc') st h
      · have : st = { config := c, status := CStatus.WAITING, seatedTime := none, seatId := none } :=
          List.mem_singleton.mp h
        subst this
        intro he
        exact hhead c' hc' (he.symm)

theorem statesAt_configs (sc : List SeatConfig) (cc : List CustomerConfig) :
    ∀ n, (statesAt sc cc n).map CustState.config = (buildStates cc).map CustState.config := by
  intro n
  induction n with
  | zero => rfl
  | succ m ih =>
    rw [statesAt_succ]
    show ((processAll sc m _ (statesAt sc cc m)).2).map CustState.config = _
    rw [processAll_configs, ih]

/-- Facts a matching seat satisfies, read off the `seatMatches` conditions. -/
theorem seatMatches_elim (cfgs : List SeatConfig) (c : CustomerConfig) (s : Seat)
    (h : seatMatches cfgs c s = true) :
    s.occupiedBy = none ∧ c.partySize ≤ seatCapacity s.type ∧
    (c.needsWheelchair = true → s.isWheelchairAccessible = true) ∧
    ∃ config, cfgs.find? (fun k => k.id == s.id) = some config ∧
      (c.needsBabyChair = true → config.canAttachBabyChair = true) := by
  unfold seatMatches at h
  by_cases hocc : s.occupiedBy ≠ none
  · rw [if_pos hocc] at h; cases h
  · rw [if_neg hocc] at h
    push_neg at hocc
    rcases hfind : cfgs.find? (fun k => k.id == s.id) with _ | config <;> rw [hfind] at h
    · cases h
    · dsimp only at h
      by_cases hcap : seatCapacity s.type < c.partySize
      · rw [if_pos hcap] at h; cases h
      · rw [if_neg hcap] at h
        by_cases hw : (c.needsWheelchair && !s.isWheelchairAccessible) = true
        · rw [if_pos hw] at h; cases h
        · rw [if_neg hw] at h
          by_cases hb : (c.needsBabyChair && !config.canAttachBabyChair) = true
          · rw [if_pos hb] at h; cases h
          · refine ⟨hocc, by omega, ?_, config, hfind, ?_⟩
            · intro hwc
              simp only [hwc, Bool.true_and, Bool.not_eq_true'] at hw
              simpa using hw
            · intro hbc
              simp only [hbc, Bool.true_and, Bool.not_eq_true'] at hb
              simpa using hb

/-- An occupied seat never matches. -/
theorem seatMatches_of_occupied (cfgs : List SeatConfig) (c : CustomerConfig)
    (s : Seat) (h : s.occupiedBy ≠ none) : seatMatches cfgs c s = false := by
  unfold seatMatches
  rw [if_pos h]

/-- Claim C9: the frame sequence returned by `runSimulation` has strictly
increasing timestamps (the frame stored at index t carries timestamp t), and
frames are append-only snapshots of the per-tick state: the frames emitted by
the first n ticks are a prefix of the frames emitted by any longer run, so
the processing of later ticks never alters a frame already emitted. -/
theorem C9_frames_immutable (sc : List SeatConfig) (cc : List CustomerConfig) :
    (∀ t fr, (runSimulation sc cc).get? t = some fr → fr.timestamp = t) ∧
    (∀ i j fi fj, (runSimulation sc cc).get? i = some fi →
      (runSimulation sc cc).get? j = some fj → i < j → fi.timestamp < fj.timestamp) ∧
    (∀ n m, n ≤ m → (framesUpTo sc cc n).IsPrefix (framesUpTo sc cc m)) := by
  refine ⟨?_, ?_, framesUpTo_prefix sc cc⟩
  · intro t fr h
    rw [(runSimulation_get? sc cc t fr h).2, tickFrameAt_timestamp]
  · intro i j fi fj hi hj hij
    rw [(runSimulation_get? sc cc i fi hi).2, (runSimulation_get? sc cc j fj hj).2,
      tickFrameAt_timestamp, tickFrameAt_timestamp]
    exact hij

/-- Witness for C9 at a concrete input. -/
theorem C9_frames_immutable_witness :
    (framesUpTo poolSingle famSolo 3).IsPrefix (framesUpTo poolSingle famSolo 7) :=
  (C9_frames_immutable poolSingle famSolo).2.2 3 7 (by decide)

/-- Claim C10: the simulation runner is a pure function of its two
configuration arguments — structurally equal inputs produce structurally
identical frame sequences, frame by frame. -/
theorem C10_deterministic (sc₁ sc₂ : List SeatConfig) (cc₁ cc₂ : List CustomerConfig)
    (h1 : sc₁ = sc₂) (h2 : cc₁ = cc₂) :
    runSimulation sc₁ cc₁ = runSimulation sc₂ cc₂ ∧
    (runSimulation sc₁ cc₁).length = (runSimulation sc₂ cc₂).length ∧
    ∀ i, (runSimulation sc₁ cc₁).get? i = (runSimulation sc₂ cc₂).get? i := by
  subst h1
  subst h2
  exact ⟨rfl, rfl, fun _ => rfl⟩

/-- Witness for C10 at a concrete input. -/
theorem C10_deterministic_witness :
    runSimulation poolSingle famSolo = runSimulation poolSingle famSolo :=
  (C10_deterministic poolSingle poolSingle famSolo famSolo rfl rfl).1

/-- Claim C1 (amended): `findSuitableSeat` is first-fit in configuration-list
order, not best-fit. A returned seat is free, satisfies every constraint and
has sufficient capacity, and every seat listed before it fails the per-seat
test — but no preference among capacity classes is applied beyond
sufficiency. -/
theorem C1_first_fit (seats : List Seat) (c : CustomerConfig)
    (cfgs : List SeatConfig) (s : Seat) (h : findSuitableSeat seats c cfgs = some s) :
    seatMatches cfgs c s = true ∧ s.occupiedBy = none ∧
    c.partySize ≤ seatCapacity s.type ∧
    ∃ l₁ l₂, seats = l₁ ++ s :: l₂ ∧ ∀ x ∈ l₁, seatMatches cfgs c x = false := by
  obtain ⟨hp, l₁, l₂, heq, hfalse⟩ := find?_eq_some_split _ seats s h
  obtain ⟨hocc, hcap, -, -⟩ := seatMatches_elim cfgs c s hp
  exact ⟨hp, hocc, hcap, l₁, l₂, heq, hfalse⟩

/-- The six-person table of `poolSixThenSingle`, as initialised. -/
def seatT6 : Seat :=
  { id := "T6", type := SeatType.SIXP, occupiedBy := none,
    isBabyChairAttached := false, isWheelchairAccessible := false }

/-- Witness for the amended C1 at a concrete input. -/
theorem C1_first_fit_witness :
    seatMatches poolSixThenSingle custSolo seatT6 = true ∧ seatT6.occupiedBy = none ∧
    custSolo.partySize ≤ seatCapacity seatT6.type ∧
    ∃ l₁ l₂, initSeats poolSixThenSingle = l₁ ++ seatT6 :: l₂ ∧
      ∀ x ∈ l₁, seatMatches poolSixThenSingle custSolo x = false :=
  C1_first_fit (initSeats poolSixThenSingle) custSolo poolSixThenSingle seatT6 (by decide)

theorem occupyFirst_of_find? (p : Seat → Bool) (fid : Nat) (b : Bool)
    (l : List Seat) (u : Seat) (h : l.find? p = some u) :
    ∃ l', occupyFirst p fid b l = some (u.id, l') := by
  obtain ⟨hp, l₁, l₂, rfl, hfalse⟩ := find?_eq_some_split p l u h
  exact ⟨_, occupyFirst_append p fid b l₁ u l₂ hfalse hp⟩

/-- The tick context after a successful seating of `st` on seat `sid`. -/
def seatedCtx (ctx : TickCtx) (time : Nat) (st : CustState) (sid : String)
    (seats' : List Seat) : TickCtx :=
  { ctx with
      seats := seats',
      events := ctx.events ++ [mkSeatedEvent time st sid] }

/-- The customer state after a successful seating at `time` on seat `sid`. -/
def seatedSt (st : CustState) (time : Nat) (sid : String) : CustState :=
  { st with
      status := CStatus.SEATED,
      seatedTime := some time,
      seatId := some sid }

/-- The tick context after pushing `st` onto the waiting queue. -/
def queuedCtx (ctx : TickCtx) (st : CustState) : TickCtx :=
  { ctx with waitingQueue := ctx.waitingQueue ++ [mkWaitingCustomer st.config] }

/-- The tick context after the departure of `st` from seat `sid`. -/
def departedCtx (ctx : TickCtx) (time : Nat) (st : CustState) (sid : String) : TickCtx :=
  { ctx with
      seats := releaseSeatById ctx.seats sid,
      events := ctx.events ++ [mkLeftEvent time st] }

/-- The customer state after departure. -/
def leftSt (st : CustState) : CustState :=
  { st with status := CStatus.LEFT }

theorem stepCustomer_waiting_seated (cfg : List SeatConfig) (time : Nat)
    (ctx : TickCtx) (st : CustState) (sid : String) (seats' : List Seat)
    (hw : st.status = CStatus.WAITING) (ha : st.config.arrivalTime ≤ time)
    (hocc : occupyFirst (seatMatches cfg st.config) st.config.familyId
      st.config.needsBabyChair ctx.seats = some (sid, seats')) :
    stepCustomer cfg time ctx st = (seatedCtx ctx time st sid seats', seatedSt st time sid) := by
  unfold stepCustomer
  rw [hw]
  dsimp only
  rw [if_pos ha, hocc]
  rfl

theorem stepCustomer_waiting_queued (cfg : List SeatConfig) (time : Nat)
    (ctx : TickCtx) (st : CustState)
    (hw : st.status = CStatus.WAITING) (ha : st.config.arrivalTime ≤ time)
    (hocc : occupyFirst (seatMatches cfg st.config) st.config.familyId
      st.config.needsBabyChair ctx.seats = none) :
    stepCustomer cfg time ctx st = (queuedCtx ctx st, st) := by
  unfold stepCustomer
  rw [hw]
  dsimp only
  rw [if_pos ha, hocc]
  rfl

theorem stepCustomer_departs (cfg : List SeatConfig) (time : Nat)
    (ctx : TickCtx) (st : CustState) (s : Nat) (sid : String)
    (hD : st.status = CStatus.SEATED) (hsD : st.seatedTime = some s)
    (hdue : s + st.config.estimatedDiningTime ≤ time) (hsid : st.seatId = some sid) :
    stepCustomer cfg time ctx st = (departedCtx ctx time st sid, leftSt st) := by
  unfold stepCustomer
  rw [hD]
  dsimp only
  rw [hsD]
  dsimp only
  rw [if_pos hdue, hsid]
  simp [departedCtx, leftSt, hsD, hsid]

theorem processAll_pair (cfg : List SeatConfig) (time : Nat) (ctx : TickCtx)
    (st1 st2 : CustState) :
    processAll cfg time ctx [st1, st2] =
      ((stepCustomer cfg time (stepCustomer cfg time ctx st1).1 st2).1,
        [(stepCustomer cfg time ctx st1).2,
          (stepCustomer cfg time (stepCustomer cfg time ctx st1).1 st2).2]) := rfl

/-- Claim C2 (amended): within a tick, waiting families are attempted in the
order their records appear in the customer-state map (the customer-list
insertion order), not in arrival-time order: with two arrived waiting
families and only one seat available to them, the family listed first is
seated — even when the family listed second arrived strictly earlier. -/
theorem C2_list_order (cfg : List SeatConfig) (time : Nat) (ctx : TickCtx)
    (st1 st2 : CustState) (sid : String) (seats' : List Seat)
    (hw1 : st1.status = CStatus.WAITING) (hw2 : st2.status = CStatus.WAITING)
    (ha1 : st1.config.arrivalTime ≤ time) (ha2 : st2.config.arrivalTime ≤ time)
    (hearlier : st2.config.arrivalTime < st1.config.arrivalTime)
    (hocc : occupyFirst (seatMatches cfg st1.config) st1.config.familyId
      st1.config.needsBabyChair ctx.seats = some (sid, seats'))
    (hnone : ∀ x ∈ seats', seatMatches cfg st2.config x = false) :
    ((processAll cfg time ctx [st1, st2]).2.get? 0).map CustState.status =
      some CStatus.SEATED ∧
    ((processAll cfg time ctx [st1, st2]).2.get? 0).map CustState.seatedTime =
      some (some time) ∧
    ((processAll cfg time ctx [st1, st2]).2.get? 1).map CustState.status =
      some CStatus.WAITING ∧
    (processAll cfg time ctx [st1, st2]).1.waitingQueue =
      ctx.waitingQueue ++ [mkWaitingCustomer st2.config] := by
  have h1 := stepCustomer_waiting_seated cfg time ctx st1 sid seats' hw1 ha1 hocc
  have hocc2 : occupyFirst (seatMatches cfg st2.config) st2.config.familyId
      st2.config.needsBabyChair seats' = none :=
    (occupyFirst_eq_none_iff _ _ _ _).mpr hnone
  have h2 := stepCustomer_waiting_queued cfg time (seatedCtx ctx time st1 sid seats')
    st2 hw2 ha2 hocc2
  refine ⟨?_, ?_, ?_, ?_⟩ <;>
  · simp only [processAll_pair, h1, h2]
    simp [seatedSt, seatedCtx, queuedCtx, hw2]

/-- First waiting family of the C2 witness: listed first, arrives at 5. -/
def stFirstLate : CustState :=
  { config :=
      { id := 2, familyId := 2, arrivalTime := 5, type := CustomerType.INDIVIDUAL,
        partySize := 1, needsBabyChair := false, needsWheelchair := false,
        estimatedDiningTime := 10 },
    status := CStatus.WAITING, seatedTime := none, seatId := none }

/-- Second waiting family of the C2 witness: listed second, arrives at 3. -/
def stSecondEarly : CustState :=
  { config :=
      { id := 3, familyId := 3, arrivalTime := 3, type := CustomerType.INDIVIDUAL,
        partySize := 1, needsBabyChair := false, needsWheelchair := false,
        estimatedDiningTime := 10 },
    status := CStatus.WAITING, seatedTime := none, seatId := none }

/-- The single free seat of `poolSingle`, after family 2 occupies it. -/
def seatS1For2 : Seat :=
  { id := "S1", type := SeatType.SINGLE, occupiedBy := some 2,
    isBabyChairAttached := false, isWheelchairAccessible := false }

/-- Witness for the amended C2 at a concrete input. -/
theorem C2_list_order_witness :
    ((processAll poolSingle 10 ⟨initSeats poolSingle, [], []⟩
        [stFirstLate, stSecondEarly]).2.get? 0).map CustState.status =
      some CStatus.SEATED ∧
    ((processAll poolSingle 10 ⟨initSeats poolSingle, [], []⟩
        [stFirstLate, stSecondEarly]).2.get? 0).map CustState.seatedTime =
      some (some 10) ∧
    ((processAll poolSingle 10 ⟨initSeats poolSingle, [], []⟩
        [stFirstLate, stSecondEarly]).2.get? 1).map CustState.status =
      some CStatus.WAITING ∧
    (processAll poolSingle 10 ⟨initSeats poolSingle, [], []⟩
        [stFirstLate, stSecondEarly]).1.waitingQueue =
      ([] : List Customer) ++ [mkWaitingCustomer stSecondEarly.config] :=
  C2_list_order poolSingle 10 ⟨initSeats poolSingle, [], []⟩ stFirstLate stSecondEarly
    "S1" [seatS1For2] rfl rfl (by decide) (by decide) (by decide) (by decide) (by decide)

/-- Claim C3 (amended): a seat freed by a departure at tick T is visible at
tick T only to waiting families processed after the departing family in
customer-state-map order.  With a waiting family whose only candidate seat is
the one the departing family holds: if the waiting family precedes the
departing family it stays Waiting this tick while the departure still goes
through, and if it follows the departing family it is seated this tick. -/
theorem C3_release_order (cfg : List SeatConfig) (time : Nat) (ctx : TickCtx)
    (stW stD : CustState) (s : Nat) (sid : String) (sFree : Seat)
    (hW : stW.status = CStatus.WAITING) (haW : stW.config.arrivalTime ≤ time)
    (hD : stD.status = CStatus.SEATED) (hsD : stD.seatedTime = some s)
    (hdue : s + stD.config.estimatedDiningTime ≤ time)
    (hsid : stD.seatId = some sid)
    (hnone : ∀ x ∈ ctx.seats, seatMatches cfg stW.config x = false)
    (hfree : findSuitableSeat (releaseSeatById ctx.seats sid) stW.config cfg = some sFree) :
    ((processAll cfg time ctx [stW, stD]).2.get? 0).map CustState.status =
      some CStatus.WAITING ∧
    ((processAll cfg time ctx [stW, stD]).2.get? 1).map CustState.status =
      some CStatus.LEFT ∧
    ((processAll cfg time ctx [stD, stW]).2.get? 0).map CustState.status =
      some CStatus.LEFT ∧
    ((processAll cfg time ctx [stD, stW]).2.get? 1).map CustState.status =
      some CStatus.SEATED := by
  have hoccW : occupyFirst (seatMatches cfg stW.config) stW.config.familyId
      stW.config.needsBabyChair ctx.seats = none :=
    (occupyFirst_eq_none_iff _ _ _ _).mpr hnone
  have h1 := stepCustomer_waiting_queued cfg time ctx stW hW haW hoccW
  have h2 := stepCustomer_departs cfg time (queuedCtx ctx stW) stD s sid hD hsD hdue hsid
  have h3 := stepCustomer_departs cfg time ctx stD s sid hD hsD hdue hsid
  obtain ⟨seatsW, hoccW2⟩ := occupyFirst_of_find? (seatMatches cfg stW.config)
    stW.config.familyId stW.config.needsBabyChair _ sFree hfree
  have h4 := stepCustomer_waiting_seated cfg time (departedCtx ctx time stD sid)
    stW sFree.id seatsW hW haW hoccW2
  refine ⟨?_, ?_, ?_, ?_⟩ <;>
  · simp only [processAll_pair, h1, h2, h3, h4]
    simp [seatedSt, seatedCtx, queuedCtx, departedCtx, leftSt, hW]

/-- The waiting family of the C3 witness (arrived at 1, party of 1). -/
def stWaiterEarly : CustState :=
  { config :=
      { id := 1, familyId := 1, arrivalTime := 1, type := CustomerType.INDIVIDUAL,
        partySize := 1, needsBabyChair := false, needsWheelchair := false,
        estimatedDiningTime := 5 },
    status := CStatus.WAITING, seatedTime := none, seatId := none }

/-- The departing family of the C3 witness (seated at 0 for 10 on seat S1). -/
def stDinerDue : CustState :=
  { config :=
      { id := 2, familyId := 2, arrivalTime := 0, type := CustomerType.INDIVIDUAL,
        partySize := 1, needsBabyChair := false, needsWheelchair := false,
        estimatedDiningTime := 10 },
    status := CStatus.SEATED, seatedTime := some 0, seatId := some "S1" }

/-- The single seat of `poolSingle`, freshly vacated. -/
def seatS1Free : Seat :=
  { id := "S1", type := SeatType.SINGLE, occupiedBy := none,
    isBabyChairAttached := false, isWheelchairAccessible := false }

/-- Witness for the amended C3 at a concrete input. -/
theorem C3_release_order_witness :
    ((processAll poolSingle 10 ⟨[seatS1For2], [], []⟩ [stWaiterEarly, stDinerDue]).2.get? 0).map
        CustState.status = some CStatus.WAITING ∧
    ((processAll poolSingle 10 ⟨[seatS1For2], [], []⟩ [stWaiterEarly, stDinerDue]).2.get? 1).map
        CustState.status = some CStatus.LEFT ∧
    ((processAll poolSingle 10 ⟨[seatS1For2], [], []⟩ [stDinerDue, stWaiterEarly]).2.get? 0).map
        CustState.status = some CStatus.LEFT ∧
    ((processAll poolSingle 10 ⟨[seatS1For2], [], []⟩ [stDinerDue, stWaiterEarly]).2.get? 1).map
        CustState.status = some CStatus.SEATED :=
  C3_release_order poolSingle 10 ⟨[seatS1For2], [], []⟩ stWaiterEarly stDinerDue 0 "S1"
    seatS1Free rfl (by decide) rfl rfl (by decide) rfl (by decide) (by decide)

/-- Claim C5 (amended): the engine tracks no global baby-chair (or
wheelchair) counter — a family's baby-chair need is checked only against the
candidate seat's `canAttachBabyChair` flag — so two arrived waiting families
that each need a baby chair are both seated within the same tick whenever a
second baby-capable seat remains after the first family is placed. -/
theorem C5_no_global_cap (cfg : List SeatConfig) (time : Nat) (ctx : TickCtx)
    (st1 st2 : CustState) (sid1 : String) (seats' : List Seat) (s2 : Seat)
    (hw1 : st1.status = CStatus.WAITING) (hw2 : st2.status = CStatus.WAITING)
    (ha1 : st1.config.arrivalTime ≤ time) (ha2 : st2.config.arrivalTime ≤ time)
    (hbaby1 : st1.config.needsBabyChair = true) (hbaby2 : st2.config.needsBabyChair = true)
    (hocc : occupyFirst (seatMatches cfg st1.config) st1.config.familyId
      st1.config.needsBabyChair ctx.seats = some (sid1, seats'))
    (hfind2 : findSuitableSeat seats' st2.config cfg = some s2) :
    ((processAll cfg time ctx [st1, st2]).2.get? 0).map CustState.status =
      some CStatus.SEATED ∧
    ((processAll cfg time ctx [st1, st2]).2.get? 1).map CustState.status =
      some CStatus.SEATED := by
  have h1 := stepCustomer_waiting_seated cfg time ctx st1 sid1 seats' hw1 ha1 hocc
  obtain ⟨seats'', hocc2⟩ := occupyFirst_of_find? (seatMatches cfg st2.config)
    st2.config.familyId st2.config.needsBabyChair _ s2 hfind2
  have h2 := stepCustomer_waiting_seated cfg time (seatedCtx ctx time st1 sid1 seats')
    st2 s2.id seats'' hw2 ha2 hocc2
  constructor <;>
  · simp only [processAll_pair, h1, h2]
    simp [seatedSt, seatedCtx]

/-- The two baby-chair families of the C5 witness, as waiting states. -/
def stBabyOne : CustState :=
  { config :=
      { id := 1, familyId := 1, arrivalTime := 0, type := CustomerType.WITH_BABY,
        partySize := 2, needsBabyChair := true, needsWheelchair := false,
        estimatedDiningTime := 10 },
    status := CStatus.WAITING, seatedTime := none, seatId := none }

/-- The second baby-chair family of the C5 witness. -/
def stBabyTwo : CustState :=
  { config :=
      { id := 2, familyId := 2, arrivalTime := 0, type := CustomerType.WITH_BABY,
        partySize := 2, needsBabyChair := true, needsWheelchair := false,
        estimatedDiningTime := 10 },
    status := CStatus.WAITING, seatedTime := none, seatId := none }

/-- The seat pool of the C5 witness after family 1 takes table B1. -/
def seatsAfterBabyOne : List Seat :=
  [{ id := "B1", type := SeatType.FOURP, occupiedBy := some 1,
     isBabyChairAttached := true, isWheelchairAccessible := false },
   { id := "B2", type := SeatType.FOURP, occupiedBy := none,
     isBabyChairAttached := false, isWheelchairAccessible := false }]

/-- The free baby-capable table left for family 2 in the C5 witness. -/
def seatB2Free : Seat :=
  { id := "B2", type := SeatType.FOURP, occupiedBy := none,
    isBabyChairAttached := false, isWheelchairAccessible := false }

/-- Witness for the amended C5 at a concrete input. -/
theorem C5_no_global_cap_witness :
    ((processAll poolTwoBaby 0 ⟨initSeats poolTwoBaby, [], []⟩ [stBabyOne, stBabyTwo]).2.get? 0).map
        CustState.status = some CStatus.SEATED ∧
    ((processAll poolTwoBaby 0 ⟨initSeats poolTwoBaby, [], []⟩ [stBabyOne, stBabyTwo]).2.get? 1).map
        CustState.status = some CStatus.SEATED :=
  C5_no_global_cap poolTwoBaby 0 ⟨initSeats poolTwoBaby, [], []⟩ stBabyOne stBabyTwo
    "B1" seatsAfterBabyOne seatB2Free
    rfl rfl (by decide) (by decide) rfl rfl (by decide) (by decide)

/-- The tick context entering tick `n`'s `forEach`. -/
def tickCtx0 (sc : List SeatConfig) (cc : List CustomerConfig) (n : Nat) : TickCtx :=
  { seats := seatsAt sc cc n,
    events := arrivalEvents (sortByArrival cc) n,
    waitingQueue := [] }

theorem tickFrameAt_events (sc : List SeatConfig) (cc : List CustomerConfig) (n : Nat) :
    (tickFrameAt sc cc n).events =
      ((processAll sc n (tickCtx0 sc cc n) (statesAt sc cc n)).1).events := rfl

theorem tickFrameAt_queue (sc : List SeatConfig) (cc : List CustomerConfig) (n : Nat) :
    (tickFrameAt sc cc n).waitingQueue =
      ((processAll sc n (tickCtx0 sc cc n) (statesAt sc cc n)).1).waitingQueue := rfl

theorem statesAt_succ_processAll (sc : List SeatConfig) (cc : List CustomerConfig)
    (n : Nat) :
    statesAt sc cc (n + 1) = (processAll sc n (tickCtx0 sc cc n) (statesAt sc cc n)).2 := rfl

theorem seatsAt_succ_processAll (sc : List SeatConfig) (cc : List CustomerConfig)
    (n : Nat) :
    seatsAt sc cc (n + 1) = ((processAll sc n (tickCtx0 sc cc n) (statesAt sc cc n)).1).seats := rfl

theorem arrivalEvents_types (sorted : List CustomerConfig) (time : Nat) :
    ∀ ev ∈ arrivalEvents sorted time, ev.type = EventType.ARRIVAL := by
  intro ev hev
  obtain ⟨c, _, rfl⟩ := List.mem_map.mp hev
  rfl

theorem framesUpTo_mem (sc : List SeatConfig) (cc : List CustomerConfig) (n : Nat) :
    ∀ fr ∈ framesUpTo sc cc n, ∃ i, i < n ∧ fr = tickFrameAt sc cc i := by
  intro fr hfr
  obtain ⟨i, hget⟩ := List.mem_iff_get?.mp hfr
  have hi : i < n := by
    obtain ⟨h3, -⟩ := List.get?_eq_some.mp hget
    rwa [framesUpTo_length] at h3
  rw [framesUpTo_get? sc cc n i hi] at hget
  injection hget with hget
  exact ⟨i, hi, hget.symm⟩

/-- Per-tick waiting-queue recording: every customer who ends the tick still
Waiting though arrived is listed in the tick's waiting queue. -/
theorem processAll_waiting_in_queue (cfg : List SeatConfig) (time : Nat) :
    ∀ (l : List CustState) (ctx : TickCtx),
      ∀ st' ∈ (processAll cfg time ctx l).2,
        st'.status = CStatus.WAITING → st'.config.arrivalTime ≤ time →
        ∃ c ∈ ((processAll cfg time ctx l).1).waitingQueue, c.id = st'.config.id := by
  intro l
  induction l with
  | nil => intro ctx st' hst'; cases hst'
  | cons st rest ih =>
    intro ctx st' hst' hw ha
    rcases List.mem_cons.mp hst' with rfl | hmem
    · rcases stepCustomer_spec cfg time ctx st with ⟨heq, hcase⟩ | ⟨s, hD, hsD, hdue, heq⟩ |
        ⟨sid, seats', hW, haT, hocc, heq⟩ | ⟨hW, haT, hocc, heq⟩
      · have hst : (stepCustomer cfg time ctx st).2 = st := by rw [heq]
        rcases hcase with hL | ⟨hS, _⟩ | ⟨hWs, hlate⟩
        · rw [hst, hL] at hw; cases hw
        · rw [hst, hS] at hw; cases hw
        · rw [hst] at ha
          omega
      · rw [heq] at hw
        cases hw
      · rw [heq] at hw
        cases hw
      · obtain ⟨q, hq⟩ := processAll_queue cfg time rest (stepCustomer cfg time ctx st).1
        show ∃ c ∈ ((processAll cfg time (stepCustomer cfg time ctx st).1 rest).1).waitingQueue, _
        rw [hq, heq]
        refine ⟨mkWaitingCustomer st.config, ?_, ?_⟩
        · apply List.mem_append_left
          dsimp only
          exact List.mem_append_right _ (List.mem_singleton.mpr rfl)
        · rfl
    · exact ih (stepCustomer cfg time ctx st).1 st' hmem hw ha

/-- Claim C4 (amended): on a failed matching attempt the engine only records
the family in the frame's waiting queue — it emits no Waiting or Conflict
event; every event of every frame is an Arrival, Seated or Left event, and
every family still Waiting after an attempt at tick t (having arrived by t)
appears in tick t's waiting queue. -/
theorem C4_no_conflict (sc : List SeatConfig) (cc : List CustomerConfig) :
    (∀ fr ∈ runSimulation sc cc, ∀ ev ∈ fr.events,
      ev.type = EventType.ARRIVAL ∨ ev.type = EventType.SEATED ∨
        ev.type = EventType.LEFT) ∧
    (∀ t fr, (runSimulation sc cc).get? t = some fr →
      ∀ st ∈ statesAt sc cc (t + 1), st.status = CStatus.WAITING →
        st.config.arrivalTime ≤ t →
        ∃ c ∈ fr.waitingQueue, c.id = st.config.id) := by
  constructor
  · intro fr hfr ev hev
    obtain ⟨i, hi, rfl⟩ := framesUpTo_mem sc cc (maxTime cc + 1) fr hfr
    rw [tickFrameAt_events] at hev
    obtain ⟨e, he, ht⟩ := processAll_events sc i (statesAt sc cc i) (tickCtx0 sc cc i)
    rw [he] at hev
    rcases List.mem_append.mp hev with h | h
    · exact Or.inl (arrivalEvents_types _ i ev h)
    · rcases ht ev h with h' | h'
      · exact Or.inr (Or.inr h')
      · exact Or.inr (Or.inl h')
  · intro t fr hfr st hst hw ha
    obtain ⟨-, rfl⟩ := runSimulation_get? sc cc t fr hfr
    rw [tickFrameAt_queue]
    rw [statesAt_succ_processAll] at hst
    exact processAll_waiting_in_queue sc t (statesAt sc cc t) (tickCtx0 sc cc t) st hst hw ha

/-- The second family of `famsTwoAtZero` as a waiting customer state. -/
def stSecondAtZero : CustState :=
  { config :=
      { id := 2, familyId := 2, arrivalTime := 0, type := CustomerType.INDIVIDUAL,
        partySize := 1, needsBabyChair := false, needsWheelchair := false,
        estimatedDiningTime := 20 },
    status := CStatus.WAITING, seatedTime := none, seatId := none }

/-- Witness for the amended C4 at a concrete input. -/
theorem C4_no_conflict_witness :
    ∃ c ∈ ((runSimulation poolSingle famsTwoAtZero).get ⟨0, by decide⟩).waitingQueue,
      c.id = stSecondAtZero.config.id :=
  (C4_no_conflict poolSingle famsTwoAtZero).2 0 _
    (List.get?_eq_get (by decide)) stSecondAtZero (by decide) rfl (by decide)


/-- Seating-time invariant at tick boundary `n` (`n` ticks processed):
a seated customer was seated at some past tick and either is still within its
dining duration or was seated at the immediately preceding tick. -/
def SInv (n : Nat) (st : CustState) : Prop :=
  st.status = CStatus.SEATED →
    ∃ s, st.seatedTime = some s ∧ s < n ∧
      (n ≤ s + st.config.estimatedDiningTime ∨ s + 1 = n)

theorem stepCustomer_SInv (cfg : List SeatConfig) (time : Nat) (ctx : TickCtx)
    (st : CustState) (hpre : SInv time st) :
    SInv (time + 1) (stepCustomer cfg time ctx st).2 := by
  rcases stepCustomer_spec cfg time ctx st with ⟨heq, hcase⟩ | ⟨s, hD, hsD, hdue, heq⟩ |
    ⟨sid, seats', hW, haT, hocc, heq⟩ | ⟨hW, haT, hocc, heq⟩ <;> rw [heq] <;> dsimp only <;>
    intro hstatus
  · rcases hcase with hL | ⟨hS, hrest⟩ | ⟨hWs, hlate⟩
    · rw [hL] at hstatus; cases hstatus
    · obtain ⟨s, hsome, hlt, -⟩ := hpre hS
      rcases hrest with hnone | ⟨s', hsome', hlt'⟩
      · rw [hsome] at hnone; cases hnone
      · refine ⟨s, hsome, by omega, Or.inl ?_⟩
        rw [hsome] at hsome'
        injection hsome' with hss
        omega
    · rw [hWs] at hstatus; cases hstatus
  · cases hstatus
  · exact ⟨time, rfl, by omega, Or.inr rfl⟩
  · rw [hW] at hstatus; cases hstatus

theorem processAll_mem_step (cfg : List SeatConfig) (time : Nat) :
    ∀ (l : List CustState) (ctx : TickCtx),
      ∀ st' ∈ (processAll cfg time ctx l).2,
        ∃ st ∈ l, ∃ ctx', st' = (stepCustomer cfg time ctx' st).2 := by
  intro l
  induction l with
  | nil => intro ctx st' hst'; cases hst'
  | cons st rest ih =>
    intro ctx st' hst'
    rcases List.mem_cons.mp hst' with rfl | hmem
    · exact ⟨st, List.mem_cons_self _ _, ctx, rfl⟩
    · obtain ⟨st₀, hst₀, ctx', heq⟩ := ih (stepCustomer cfg time ctx st).1 st' hmem
      exact ⟨st₀, List.mem_cons_of_mem _ hst₀, ctx', heq⟩

theorem statesAt_SInv (sc : List SeatConfig) (cc : List CustomerConfig) :
    ∀ n, ∀ st ∈ statesAt sc cc n, SInv n st := by
  intro n
  induction n with
  | zero =>
    intro st hst hstatus
    obtain ⟨hw, -, -⟩ := buildStates_mem cc st hst
    rw [hw] at hstatus
    cases hstatus
  | succ m ih =>
    intro st hst
    rw [statesAt_succ_processAll] at hst
    obtain ⟨st₀, hst₀, ctx', rfl⟩ := processAll_mem_step sc m _ (tickCtx0 sc cc m) st hst
    exact stepCustomer_SInv sc m ctx' st₀ (ih st₀ hst₀)

/-- Per-tick account of newly departed customers: a customer that ends the
tick as Left either entered the tick as that same Left state, or departed
during the tick leaving a Left event (timestamped no earlier than its
seating time plus dining duration) among the tick's events. -/
theorem processAll_leftOk (cfg : List SeatConfig) (time : Nat) :
    ∀ (l : List CustState) (ctx : TickCtx),
      ∀ st' ∈ (processAll cfg time ctx l).2, st'.status = CStatus.LEFT →
        (st' ∈ l) ∨
        (∃ s, st'.seatedTime = some s ∧
          ∃ ev ∈ ((processAll cfg time ctx l).1).events,
            ev.type = EventType.LEFT ∧ ev.customerId = st'.config.id ∧
            s + st'.config.estimatedDiningTime ≤ ev.timestamp) := by
  intro l
  induction l with
  | nil => intro ctx st' hst'; cases hst'
  | cons st rest ih =>
    intro ctx st' hst' hstatus
    rcases List.mem_cons.mp hst' with rfl | hmem
    · rcases stepCustomer_spec cfg time ctx st with ⟨heq, hcase⟩ | ⟨s, hD, hsD, hdue, heq⟩ |
        ⟨sid, seats', hW, haT, hocc, heq⟩ | ⟨hW, haT, hocc, heq⟩
      · rw [heq]
        exact Or.inl (List.mem_cons_self _ _)
      · refine Or.inr ⟨s, ?_, ?_⟩
        · rw [heq]
          exact hsD
        · obtain ⟨e, he, -⟩ := processAll_events cfg time rest (stepCustomer cfg time ctx st).1
          show ∃ ev ∈ ((processAll cfg time (stepCustomer cfg time ctx st).1 rest).1).events, _
          rw [he, heq]
          refine ⟨mkLeftEvent time st, ?_, rfl, ?_, ?_⟩
          · show mkLeftEvent time st ∈ (ctx.events ++ [mkLeftEvent time st]) ++ e
            simp
          · rfl
          · exact hdue
      · rw [heq] at hstatus
        cases hstatus
      · rw [heq] at hstatus
        rw [hW] at hstatus
        cases hstatus
    · rcases ih (stepCustomer cfg time ctx st).1 st' hmem hstatus with h | h
      · exact Or.inl (List.mem_cons_of_mem _ h)
      · exact Or.inr h

/-- Every customer that is Left at tick boundary `n` has a Left event,
timestamped no earlier than its seating time plus its dining duration,
recorded in one of the frames emitted so far. -/
theorem statesAt_leftRecorded (sc : List SeatConfig) (cc : List CustomerConfig) :
    ∀ n, ∀ st ∈ statesAt sc cc n, st.status = CStatus.LEFT →
      ∃ s, st.seatedTime = some s ∧ ∃ fr ∈ framesUpTo sc cc n, ∃ ev ∈ fr.events,
        ev.type = EventType.LEFT ∧ ev.customerId = st.config.id ∧
        s + st.config.estimatedDiningTime ≤ ev.timestamp := by
  intro n
  induction n with
  | zero =>
    intro st hst hstatus
    obtain ⟨hw, -, -⟩ := buildStates_mem cc st hst
    rw [hw] at hstatus
    cases hstatus
  | succ m ih =>
    intro st hst hstatus
    rw [statesAt_succ_processAll] at hst
    rcases processAll_leftOk sc m (statesAt sc cc m) (tickCtx0 sc cc m) st hst hstatus
      with h | ⟨s, hsome, ev, hev, htype, hcid, hts⟩
    · obtain ⟨s, hsome, fr, hfr, hrest⟩ := ih st h hstatus
      refine ⟨s, hsome, fr, ?_, hrest⟩
      rw [framesUpTo_succ]
      exact List.mem_append_left _ hfr
    · refine ⟨s, hsome, tickFrameAt sc cc m, ?_, ev, ?_, htype, hcid, hts⟩
      · rw [framesUpTo_succ]
        exact List.mem_append_right _ (List.mem_singleton.mpr rfl)
      · rw [tickFrameAt_events]
        exact hev

/-- Claim C6 (amended): with distinct customer ids, no family is lost or
duplicated — the final state list corresponds one-to-one with the input —
and at the end of the run each family is in exactly one of three terminal
conditions: Left (with a Left event recorded at a tick no earlier than
seatedAt + diningDuration), still Waiting (and listed in the final frame's
waiting queue), or still Seated — the last only when its departure time
exceeds maxTime or it was seated at the final tick itself. -/
theorem C6_terminal (sc : List SeatConfig) (cc : List CustomerConfig)
    (hids : (cc.map CustomerConfig.id).Nodup) :
    (statesAt sc cc (maxTime cc + 1)).map CustState.config = cc ∧
    ∀ st ∈ statesAt sc cc (maxTime cc + 1),
      (st.status = CStatus.LEFT ∧ ∃ s, st.seatedTime = some s ∧
        ∃ fr ∈ runSimulation sc cc, ∃ ev ∈ fr.events, ev.type = EventType.LEFT ∧
          ev.customerId = st.config.id ∧
          s + st.config.estimatedDiningTime ≤ ev.timestamp) ∨
      (st.status = CStatus.WAITING ∧
        ∃ fr, (runSimulation sc cc).get? (maxTime cc) = some fr ∧
          ∃ c ∈ fr.waitingQueue, c.id = st.config.id) ∨
      (st.status = CStatus.SEATED ∧ ∃ s, st.seatedTime = some s ∧
        (maxTime cc < s + st.config.estimatedDiningTime ∨ s = maxTime cc)) := by
  have hconfigs : (statesAt sc cc (maxTime cc + 1)).map CustState.config = cc := by
    rw [statesAt_configs, buildStates_eq_map cc hids, List.map_map,
      show (CustState.config ∘ fun c =>
        ({ config := c, status := CStatus.WAITING, seatedTime := none,
           seatId := none } : CustState)) = id from rfl, List.map_id]
  refine ⟨hconfigs, ?_⟩
  intro st hst
  rcases hstatus : st.status with hW | hS | hL
  · refine Or.inr (Or.inl ⟨rfl, tickFrameAt sc cc (maxTime cc), ?_, ?_⟩)
    · rw [runSimulation_eq]
      exact framesUpTo_get? sc cc _ _ (Nat.lt_succ_self _)
    · have hmemcc : st.config ∈ cc := by
        rw [← hconfigs]
        exact List.mem_map_of_mem _ hst
      have harr : st.config.arrivalTime ≤ maxTime cc := by
        have := maxTime_bound cc st.config hmemcc
        omega
      rw [tickFrameAt_queue]
      rw [statesAt_succ_processAll] at hst
      exact processAll_waiting_in_queue sc (maxTime cc) (statesAt sc cc (maxTime cc))
        (tickCtx0 sc cc (maxTime cc)) st hst hstatus harr
  · refine Or.inr (Or.inr ⟨rfl, ?_⟩)
    obtain ⟨s, hsome, hlt, hcase⟩ := statesAt_SInv sc cc (maxTime cc + 1) st hst hstatus
    exact ⟨s, hsome, by omega⟩
  · refine Or.inl ⟨rfl, ?_⟩
    obtain ⟨s, hsome, fr, hfr, hrest⟩ :=
      statesAt_leftRecorded sc cc (maxTime cc + 1) st hst hstatus
    exact ⟨s, hsome, fr, by rwa [runSimulation_eq], hrest⟩

/-- Witness for the amended C6 at a concrete input. -/
theorem C6_terminal_witness :
    (statesAt poolSingle famSolo (maxTime famSolo + 1)).map CustState.config = famSolo :=
  (C6_terminal poolSingle famSolo (by decide)).1

/-- Every seated customer points (via `seatId`) at a live seat that records
its family id as occupant. -/
def SeatedInv (seats : List Seat) (states : List CustState) : Prop :=
  ∀ st ∈ states, st.status = CStatus.SEATED →
    ∃ sid, st.seatId = some sid ∧ ∃ seat ∈ seats, seat.id = sid ∧
      seat.occupiedBy = some st.config.familyId

/-- Every occupied seat is held by a seated customer that points back at it. -/
def OccInv (seats : List Seat) (states : List CustState) : Prop :=
  ∀ seat ∈ seats, ∀ f, seat.occupiedBy = some f →
    ∃ st ∈ states, st.status = CStatus.SEATED ∧ st.config.familyId = f ∧
      st.seatId = some seat.id

theorem mem_split_unique_id (seats : List Seat) (u : Seat)
    (hnd : (seats.map Seat.id).Nodup) (hu : u ∈ seats) :
    ∃ l₁ l₂, seats = l₁ ++ u :: l₂ ∧ (∀ x ∈ l₁, x.id ≠ u.id) ∧
      (∀ x ∈ l₂, x.id ≠ u.id) := by
  obtain ⟨l₁, l₂, rfl⟩ := List.append_of_mem hu
  refine ⟨l₁, l₂, rfl, ?_, ?_⟩
  · intro x hx he
    rw [List.map_append, List.map_cons, List.nodup_append] at hnd
    exact hnd.2.2 (List.mem_map_of_mem _ hx) (by rw [he]; exact List.mem_cons_self _ _)
  · intro x hx he
    rw [List.map_append, List.map_cons, List.nodup_append] at hnd
    have := hnd.2.1
    rw [List.nodup_cons] at this
    exact this.1 (by rw [← he]; exact List.mem_map_of_mem _ hx)

theorem nodup_map_inj {α β : Type} (f : α → β) (l : List α)
    (h : (l.map f).Nodup) : ∀ a ∈ l, ∀ b ∈ l, f a = f b → a = b := by
  intro a ha b hb hfe
  exact List.inj_on_of_nodup_map h ha hb hfe

theorem famId_nodup_facts (done rest : List CustState) (st : CustState)
    (h : ((done ++ st :: rest).map (fun x => x.config.familyId)).Nodup) :
    (∀ x ∈ done, x.config.familyId ≠ st.config.familyId) ∧
    (∀ x ∈ rest, x.config.familyId ≠ st.config.familyId) := by
  rw [List.map_append, List.map_cons, List.nodup_append] at h
  obtain ⟨hdone, hcons, hdisj⟩ := h
  constructor
  · intro x hx he
    exact hdisj (List.mem_map_of_mem _ hx) (by rw [he]; exact List.mem_cons_self _ _)
  · intro x hx he
    rw [List.nodup_cons] at hcons
    exact hcons.1 (by rw [← he]; exact List.mem_map_of_mem _ hx)

theorem initSeats_occupiedBy (sc : List SeatConfig) :
    ∀ seat ∈ initSeats sc, seat.occupiedBy = none := by
  intro seat hseat
  obtain ⟨c, -, rfl⟩ := List.mem_map.mp hseat
  rfl

theorem initSeats_map_id (sc : List SeatConfig) :
    (initSeats sc).map Seat.id = sc.map SeatConfig.id := by
  unfold initSeats
  rw [List.map_map]
  rfl

/-- One `forEach` body execution preserves the seat-occupancy invariants,
with the processed customer replaced in place in the state list. -/
theorem stepCustomer_inv (cfg : List SeatConfig) (time : Nat) (ctx : TickCtx)
    (st : CustState) (done rest : List CustState)
    (hsid : (ctx.seats.map Seat.id).Nodup)
    (hfid : ((done ++ st :: rest).map (fun x => x.config.familyId)).Nodup)
    (hS : SeatedInv ctx.seats (done ++ st :: rest))
    (hO : OccInv ctx.seats (done ++ st :: rest)) :
    SeatedInv ((stepCustomer cfg time ctx st).1).seats
      (done ++ (stepCustomer cfg time ctx st).2 :: rest) ∧
    OccInv ((stepCustomer cfg time ctx st).1).seats
      (done ++ (stepCustomer cfg time ctx st).2 :: rest) := by
  have hstmem : st ∈ done ++ st :: rest :=
    List.mem_append_right _ (List.mem_cons_self _ _)
  obtain ⟨hfdone, hfrest⟩ := famId_nodup_facts done rest st hfid
  rcases stepCustomer_spec cfg time ctx st with ⟨heq, -⟩ | ⟨s, hD, hsD, hdue, heq⟩ |
    ⟨sid, seats', hW, haT, hocc, heq⟩ | ⟨hW, haT, hocc, heq⟩
  · rw [heq]
    exact ⟨hS, hO⟩
  · -- departure
    obtain ⟨sid₀, hseatid, u, humem, huid, huocc⟩ := hS st hstmem hD
    obtain ⟨l₁, l₂, hseats, hl₁, hl₂⟩ := mem_split_unique_id ctx.seats u hsid humem
    have hrel : releaseSeatById ctx.seats sid₀ = l₁ ++ clearSeat u :: l₂ := by
      rw [hseats]
      exact releaseSeatById_append sid₀ l₁ u l₂
        (fun x hx => by rw [← huid]; exact hl₁ x hx) huid
    rw [heq]
    dsimp only
    rw [hseatid]
    dsimp only
    rw [hrel]
    constructor
    · intro st' hst' hstat'
      rcases List.mem_append.mp hst' with hd | hc
      · obtain ⟨sid', hsid', w, hwmem, hwid, hwocc⟩ :=
          hS st' (List.mem_append_left _ hd) hstat'
        have hwne : w.id ≠ u.id := by
          intro hwe
          have hweq : w = u := nodup_map_inj Seat.id ctx.seats hsid w hwmem u humem hwe
          rw [hweq, huocc] at hwocc
          injection hwocc with hfe
          exact hfdone st' hd hfe.symm
        have hwmem' : w ∈ l₁ ++ clearSeat u :: l₂ := by
          rw [hseats] at hwmem
          rcases List.mem_append.mp hwmem with h | h
          · exact List.mem_append_left _ h
          · rcases List.mem_cons.mp h with rfl | h
            · exact absurd rfl hwne
            · exact List.mem_append_right _ (List.mem_cons_of_mem _ h)
        exact ⟨sid', hsid', w, hwmem', hwid, hwocc⟩
      · rcases List.mem_cons.mp hc with rfl | hr
        · rw [show ({ st with status := CStatus.LEFT } : CustState).status =
            CStatus.LEFT from rfl] at hstat'
          cases hstat'
        · obtain ⟨sid', hsid', w, hwmem, hwid, hwocc⟩ :=
            hS st' (List.mem_append_right _ (List.mem_cons_of_mem _ hr)) hstat'
          have hwne : w.id ≠ u.id := by
            intro hwe
            have hweq : w = u := nodup_map_inj Seat.id ctx.seats hsid w hwmem u humem hwe
            rw [hweq, huocc] at hwocc
            injection hwocc with hfe
            exact hfrest st' hr hfe.symm
          have hwmem' : w ∈ l₁ ++ clearSeat u :: l₂ := by
            rw [hseats] at hwmem
            rcases List.mem_append.mp hwmem with h | h
            · exact List.mem_append_left _ h
            · rcases List.mem_cons.mp h with rfl | h
              · exact absurd rfl hwne
              · exact List.mem_append_right _ (List.mem_cons_of_mem _ h)
          exact ⟨sid', hsid', w, hwmem', hwid, hwocc⟩
    · intro x hx f hocc'
      rcases List.mem_append.mp hx with hxl | hxc
      · have hxold : x ∈ ctx.seats := by
          rw [hseats]
          exact List.mem_append_left _ hxl
        have hxne : x.id ≠ u.id := hl₁ x hxl
        obtain ⟨st', hold, hstat', hfam', hsid'⟩ := hO x hxold f hocc'
        have hstne : st' ≠ st := by
          intro he
          rw [he, hseatid] at hsid'
          injection hsid' with hxe
          rw [← huid] at hxe
          exact hxne hxe.symm
        rcases List.mem_append.mp hold with hd | hc
        · exact ⟨st', List.mem_append_left _ hd, hstat', hfam', hsid'⟩
        · rcases List.mem_cons.mp hc with rfl | hr
          · exact absurd rfl hstne
          · exact ⟨st', List.mem_append_right _ (List.mem_cons_of_mem _ hr),
              hstat', hfam', hsid'⟩
      · rcases List.mem_cons.mp hxc with rfl | hxr
        · rw [show (clearSeat u).occupiedBy = none from rfl] at hocc'
          cases hocc'
        · have hxold : x ∈ ctx.seats := by
            rw [hseats]
            exact List.mem_append_right _ (List.mem_cons_of_mem _ hxr)
          have hxne : x.id ≠ u.id := hl₂ x hxr
          obtain ⟨st', hold, hstat', hfam', hsid'⟩ := hO x hxold f hocc'
          have hstne : st' ≠ st := by
            intro he
            rw [he, hseatid] at hsid'
            injection hsid' with hxe
            rw [← huid] at hxe
            exact hxne hxe.symm
          rcases List.mem_append.mp hold with hd | hc
          · exact ⟨st', List.mem_append_left _ hd, hstat', hfam', hsid'⟩
          · rcases List.mem_cons.mp hc with rfl | hr
            · exact absurd rfl hstne
            · exact ⟨st', List.mem_append_right _ (List.mem_cons_of_mem _ hr),
                hstat', hfam', hsid'⟩
  · -- seating
    obtain ⟨l₁, u, l₂, hseats, hl₁false, hpu, hsideq, hseats'⟩ :=
      occupyFirst_eq_some_split _ _ _ _ _ _ hocc
    have huocc : u.occupiedBy = none := (seatMatches_elim cfg st.config u hpu).1
    rw [heq]
    dsimp only
    rw [hseats']
    constructor
    · intro st' hst' hstat'
      rcases List.mem_append.mp hst' with hd | hc
      · obtain ⟨sid', hsid', w, hwmem, hwid, hwocc⟩ :=
          hS st' (List.mem_append_left _ hd) hstat'
        have hwne : w ≠ u := by
          intro he
          rw [he, huocc] at hwocc
          cases hwocc
        have hwmem' : w ∈ l₁ ++ occSeat st.config.familyId st.config.needsBabyChair u :: l₂ := by
          rw [hseats] at hwmem
          rcases List.mem_append.mp hwmem with h | h
          · exact List.mem_append_left _ h
          · rcases List.mem_cons.mp h with rfl | h
            · exact absurd rfl hwne
            · exact List.mem_append_right _ (List.mem_cons_of_mem _ h)
        exact ⟨sid', hsid', w, hwmem', hwid, hwocc⟩
      · rcases List.mem_cons.mp hc with rfl | hr
        · refine ⟨sid, rfl, occSeat st.config.familyId st.config.needsBabyChair u, ?_, ?_, rfl⟩
          · exact List.mem_append_right _ (List.mem_cons_self _ _)
          · show u.id = sid
            exact hsideq.symm
        · obtain ⟨sid', hsid', w, hwmem, hwid, hwocc⟩ :=
            hS st' (List.mem_append_right _ (List.mem_cons_of_mem _ hr)) hstat'
          have hwne : w ≠ u := by
            intro he
            rw [he, huocc] at hwocc
            cases hwocc
          have hwmem' : w ∈ l₁ ++ occSeat st.config.familyId st.config.needsBabyChair u :: l₂ := by
            rw [hseats] at hwmem
            rcases List.mem_append.mp hwmem with h | h
            · exact List.mem_append_left _ h
            · rcases List.mem_cons.mp h with rfl | h
              · exact absurd rfl hwne
              · exact List.mem_append_right _ (List.mem_cons_of_mem _ h)
          exact ⟨sid', hsid', w, hwmem', hwid, hwocc⟩
    · intro x hx f hocc'
      rcases List.mem_append.mp hx with hxl | hxc
      · have hxold : x ∈ ctx.seats := by
          rw [hseats]
          exact List.mem_append_left _ hxl
        obtain ⟨st', hold, hstat', hfam', hsid'⟩ := hO x hxold f hocc'
        have hstne : st' ≠ st := by
          intro he
          rw [he, hW] at hstat'
          cases hstat'
        rcases List.mem_append.mp hold with hd | hc
        · exact ⟨st', List.mem_append_left _ hd, hstat', hfam', hsid'⟩
        · rcases List.mem_cons.mp hc with rfl | hr
          · exact absurd rfl hstne
          · exact ⟨st', List.mem_append_right _ (List.mem_cons_of_mem _ hr),
              hstat', hfam', hsid'⟩
      · rcases List.mem_cons.mp hxc with rfl | hxr
        · have hf : f = st.config.familyId := by
            rw [show (occSeat st.config.familyId st.config.needsBabyChair u).occupiedBy =
              some st.config.familyId from rfl] at hocc'
            injection hocc' with hf
            exact hf.symm
          refine ⟨{ st with
              status := CStatus.SEATED,
              seatedTime := some time,
              seatId := some sid },
            List.mem_append_right _ (List.mem_cons_self _ _), rfl, ?_, ?_⟩
          · show st.config.familyId = f
            rw [hf]
          · show some sid = some (occSeat st.config.familyId st.config.needsBabyChair u).id
            rw [show (occSeat st.config.familyId st.config.needsBabyChair u).id = u.id from rfl,
              ← hsideq]
        · have hxold : x ∈ ctx.seats := by
            rw [hseats]
            exact List.mem_append_right _ (List.mem_cons_of_mem _ hxr)
          obtain ⟨st', hold, hstat', hfam', hsid'⟩ := hO x hxold f hocc'
          have hstne : st' ≠ st := by
            intro he
            rw [he, hW] at hstat'
            cases hstat'
          rcases List.mem_append.mp hold with hd | hc
          · exact ⟨st', List.mem_append_left _ hd, hstat', hfam', hsid'⟩
          · rcases List.mem_cons.mp hc with rfl | hr
            · exact absurd rfl hstne
            · exact ⟨st', List.mem_append_right _ (List.mem_cons_of_mem _ hr),
                hstat', hfam', hsid'⟩
  · -- queued: seats and states unchanged
    rw [heq]
    exact ⟨hS, hO⟩

theorem append_singleton_cons {α : Type} (a : List α) (b : α) (c : List α) :
    (a ++ [b]) ++ c = a ++ b :: c := by
  rw [List.append_assoc, List.singleton_append]

/-- The whole `forEach` pass preserves the occupancy invariants. -/
theorem processAll_inv (cfg : List SeatConfig) (time : Nat) :
    ∀ (todo : List CustState) (ctx : TickCtx) (done : List CustState),
      (ctx.seats.map Seat.id).Nodup →
      ((done ++ todo).map (fun x => x.config.familyId)).Nodup →
      SeatedInv ctx.seats (done ++ todo) →
      OccInv ctx.seats (done ++ todo) →
      SeatedInv ((processAll cfg time ctx todo).1).seats
        (done ++ (processAll cfg time ctx todo).2) ∧
      OccInv ((processAll cfg time ctx todo).1).seats
        (done ++ (processAll cfg time ctx todo).2) := by
  intro todo
  induction todo with
  | nil => intro ctx done _ _ hS hO; exact ⟨hS, hO⟩
  | cons st rest ih =>
    intro ctx done hsid hfid hS hO
    obtain ⟨hS', hO'⟩ := stepCustomer_inv cfg time ctx st done rest hsid hfid hS hO
    have hcfg : (stepCustomer cfg time ctx st).2.config = st.config :=
      stepCustomer_config cfg time ctx st
    have hmapeq :
        ((done ++ (stepCustomer cfg time ctx st).2 :: rest).map
          (fun x => x.config.familyId)) =
        ((done ++ st :: rest).map (fun x => x.config.familyId)) := by
      rw [List.map_append, List.map_append, List.map_cons, List.map_cons]
      show _ ++ (stepCustomer cfg time ctx st).2.config.familyId :: _ = _
      rw [hcfg]
    have hsid' : ((((stepCustomer cfg time ctx st).1).seats).map Seat.id).Nodup := by
      rw [stepCustomer_seatIds]
      exact hsid
    have hfid' : (((done ++ [(stepCustomer cfg time ctx st).2]) ++ rest).map
        (fun x => x.config.familyId)).Nodup := by
      rw [append_singleton_cons, hmapeq]
      exact hfid
    obtain ⟨ihS, ihO⟩ := ih (stepCustomer cfg time ctx st).1
      (done ++ [(stepCustomer cfg time ctx st).2]) hsid' hfid'
      (by rw [append_singleton_cons]; exact hS')
      (by rw [append_singleton_cons]; exact hO')
    rw [append_singleton_cons] at ihS ihO
    exact ⟨ihS, ihO⟩

theorem buildStates_famIds (cc : List CustomerConfig)
    (hcid : (cc.map CustomerConfig.id).Nodup) :
    (buildStates cc).map (fun x => x.config.familyId) =
      cc.map CustomerConfig.familyId := by
  rw [buildStates_eq_map cc hcid, List.map_map]
  rfl

theorem statesAt_famIds (sc : List SeatConfig) (cc : List CustomerConfig) (n : Nat) :
    (statesAt sc cc n).map (fun x => x.config.familyId) =
      (buildStates cc).map (fun x => x.config.familyId) := by
  have h1 : ∀ (l : List CustState), l.map (fun x => x.config.familyId) =
      (l.map CustState.config).map CustomerConfig.familyId := by
    intro l
    rw [List.map_map]
    rfl
  rw [h1, h1, statesAt_configs]

theorem seatsAt_ids (sc : List SeatConfig) (cc : List CustomerConfig) :
    ∀ n, (seatsAt sc cc n).map Seat.id = sc.map SeatConfig.id := by
  intro n
  induction n with
  | zero => exact initSeats_map_id sc
  | succ m ih =>
    rw [seatsAt_succ_processAll]
    rw [processAll_seatIds]
    exact ih

/-- The occupancy invariants hold at every tick boundary. -/
theorem statesAt_occInv (sc : List SeatConfig) (cc : List CustomerConfig)
    (h1 : (sc.map SeatConfig.id).Nodup)
    (h2 : (cc.map CustomerConfig.familyId).Nodup)
    (h3 : (cc.map CustomerConfig.id).Nodup) :
    ∀ n, SeatedInv (seatsAt sc cc n) (statesAt sc cc n) ∧
      OccInv (seatsAt sc cc n) (statesAt sc cc n) := by
  have hfidn : ∀ n, ((statesAt sc cc n).map (fun x => x.config.familyId)).Nodup := by
    intro n
    rw [statesAt_famIds, buildStates_famIds cc h3]
    exact h2
  have hsidn : ∀ n, ((seatsAt sc cc n).map Seat.id).Nodup := by
    intro n
    rw [seatsAt_ids]
    exact h1
  intro n
  induction n with
  | zero =>
    constructor
    · intro st hst hstat
      obtain ⟨hw, -, -⟩ := buildStates_mem cc st hst
      rw [hw] at hstat
      cases hstat
    · intro seat hseat f hocc
      rw [initSeats_occupiedBy sc seat hseat] at hocc
      cases hocc
  | succ m ih =>
    obtain ⟨ihS, ihO⟩ := ih
    have := processAll_inv sc m (statesAt sc cc m) (tickCtx0 sc cc m) []
      (hsidn m) (hfidn m) ihS ihO
    exact this

/-- Claim C7: in every recorded frame (whose seat list is exactly the live
seat state at the end of its tick), every occupied seat is held by exactly
one family, and that family's customer state at that timestamp is Seated and
points back at that seat; this assumes well-formed configuration (distinct
seat ids, distinct family ids, distinct customer ids), since seat identity
and family identity are what the engine keys its updates on. -/
theorem C7_occupancy (sc : List SeatConfig) (cc : List CustomerConfig)
    (h1 : (sc.map SeatConfig.id).Nodup)
    (h2 : (cc.map CustomerConfig.familyId).Nodup)
    (h3 : (cc.map CustomerConfig.id).Nodup) :
    (∀ t fr, (runSimulation sc cc).get? t = some fr →
      fr.seats = seatsAt sc cc (t + 1) ∧ fr.timestamp = t) ∧
    (∀ t, ∀ seat ∈ seatsAt sc cc t, ∀ f, seat.occupiedBy = some f →
      ∃ st, st ∈ statesAt sc cc t ∧ st.status = CStatus.SEATED ∧
        st.config.familyId = f ∧ st.seatId = some seat.id ∧
        ∀ st' ∈ statesAt sc cc t, st'.status = CStatus.SEATED →
          st'.seatId = some seat.id → st' = st) := by
  constructor
  · intro t fr hfr
    obtain ⟨-, rfl⟩ := runSimulation_get? sc cc t fr hfr
    exact ⟨tickFrameAt_seats sc cc t, tickFrameAt_timestamp sc cc t⟩
  · intro t seat hseat f hocc
    obtain ⟨hSI, hOI⟩ := statesAt_occInv sc cc h1 h2 h3 t
    obtain ⟨st, hstmem, hstat, hfam, hsid'⟩ := hOI seat hseat f hocc
    refine ⟨st, hstmem, hstat, hfam, hsid', ?_⟩
    intro st' hst'mem hstat' hsid''
    obtain ⟨sid₂, hsid₂, w, hwmem, hwid, hwocc⟩ := hSI st' hst'mem hstat'
    have hsid₂eq : sid₂ = seat.id := by
      have htr : some sid₂ = some seat.id := hsid₂.symm.trans hsid''
      injection htr
    have hweq : w = seat := by
      apply nodup_map_inj Seat.id (seatsAt sc cc t) (by rw [seatsAt_ids]; exact h1)
        w hwmem seat hseat
      rw [hwid, hsid₂eq]
    have hf' : st'.config.familyId = f := by
      rw [hweq, hocc] at hwocc
      injection hwocc with h
      exact h.symm
    apply nodup_map_inj (fun x => x.config.familyId) (statesAt sc cc t)
      (by rw [statesAt_famIds, buildStates_famIds cc h3]; exact h2)
      st' hst'mem st hstmem
    show st'.config.familyId = st.config.familyId
    rw [hf', hfam]

/-- The single seat of `poolSingle` while family 1 dines (tick boundary 1). -/
def seatS1For1 : Seat :=
  { id := "S1", type := SeatType.SINGLE, occupiedBy := some 1,
    isBabyChairAttached := false, isWheelchairAccessible := false }

/-- Witness for C7 at a concrete input. -/
theorem C7_occupancy_witness :
    ∃ st, st ∈ statesAt poolSingle famSolo 1 ∧ st.status = CStatus.SEATED ∧
      st.config.familyId = 1 ∧ st.seatId = some seatS1For1.id ∧
      ∀ st' ∈ statesAt poolSingle famSolo 1, st'.status = CStatus.SEATED →
        st'.seatId = some seatS1For1.id → st' = st :=
  (C7_occupancy poolSingle famSolo (by decide) (by decide) (by decide)).2 1
    seatS1For1 (by decide) 1 (by decide)

/-! ## Claim theorems: concrete scenarios and counterexamples -/

/-- Claim C8: for one single seat and one family with partySize 1,
arrivalTime 0 and diningDuration 10, the frame at timestamp 0 shows the
family seated at the single seat (the seat's occupant is that family and a
Seated event names the seat), and the frame at timestamp 10 contains the
Left event and shows the seat vacant. -/
theorem C8_scenario_A :
    ((runSimulation poolSingle famSolo).get? 0).map SimulationFrame.timestamp = some 0 ∧
    ((runSimulation poolSingle famSolo).get? 0).map
        (fun fr => fr.seats.map (fun s => (s.id, s.occupiedBy))) = some [("S1", some 1)] ∧
    ((runSimulation poolSingle famSolo).get? 0).map
        (fun fr => fr.events.map (fun e => (e.type, e.familyId, e.seatId))) =
      some [(EventType.ARRIVAL, 1, none), (EventType.SEATED, 1, some "S1")] ∧
    ((runSimulation poolSingle famSolo).get? 10).map SimulationFrame.timestamp = some 10 ∧
    ((runSimulation poolSingle famSolo).get? 10).map
        (fun fr => fr.seats.map Seat.occupiedBy) = some [none] ∧
    ((runSimulation poolSingle famSolo).get? 10).map
        (fun fr => fr.events.map (fun e => (e.type, e.familyId, e.seatId))) =
      some [(EventType.LEFT, 1, some "S1")] := by
  decide

/-- Claim C1 counterexample: with a six-person table listed before a free
single seat, a party of 1 is assigned the six-person table even though the
free single seat also satisfies every constraint and its capacity class (1)
is the smallest sufficient one, contradicting the claimed best-fit policy. -/
theorem C1_counterexample :
    (findSuitableSeat (initSeats poolSixThenSingle) custSolo poolSixThenSingle).map
        (fun s => (s.id, seatCapacity s.type)) = some ("T6", 6) ∧
    custSolo.partySize = 1 ∧
    (initSeats poolSixThenSingle).get? 1 =
      some { id := "S1", type := SeatType.SINGLE, occupiedBy := none,
             isBabyChairAttached := false, isWheelchairAccessible := false } ∧
    seatMatches poolSixThenSingle custSolo
      { id := "S1", type := SeatType.SINGLE, occupiedBy := none,
        isBabyChairAttached := false, isWheelchairAccessible := false } = true ∧
    seatCapacity SeatType.SINGLE = 1 := by
  decide

/-- Claim C2 counterexample: family 3 arrives at 3, family 2 arrives at 5,
their requirements are identical, and the single seat becomes free at tick 10;
yet family 2 — which appears earlier in the input customer list — is seated at
tick 10 while family 3 is left in the waiting queue, so waiting families are
not attempted in arrival-time order. -/
theorem C2_counterexample :
    (famsListOrder.get? 1).map (fun c => (c.familyId, c.arrivalTime)) = some (2, 5) ∧
    (famsListOrder.get? 2).map (fun c => (c.familyId, c.arrivalTime)) = some (3, 3) ∧
    ((runSimulation poolSingle famsListOrder).get? 10).map
        (fun fr => fr.seats.map Seat.occupiedBy) = some [some 2] ∧
    ((runSimulation poolSingle famsListOrder).get? 10).map
        (fun fr => fr.waitingQueue.map Customer.familyId) = some [3] ∧
    ((runSimulation poolSingle famsListOrder).get? 10).map
        (fun fr => fr.events.map (fun e => (e.type, e.familyId))) =
      some [(EventType.LEFT, 1), (EventType.SEATED, 2)] := by
  decide

/-- Claim C3 counterexample: family 2 departs at tick 10 and the frame at
tick 10 already shows the seat vacant, yet family 1 — waiting since tick 1 but
placed before family 2 in the customer list — is still in the waiting queue at
tick 10 and is only seated at tick 11: a seat released at tick T is not
available to a waiting family processed before the departing one. -/
theorem C3_counterexample :
    ((runSimulation poolSingle famsWaitBeforeDepart).get? 10).map
        (fun fr => fr.seats.map Seat.occupiedBy) = some [none] ∧
    ((runSimulation poolSingle famsWaitBeforeDepart).get? 10).map
        (fun fr => fr.waitingQueue.map Customer.familyId) = some [1] ∧
    ((runSimulation poolSingle famsWaitBeforeDepart).get? 10).map
        (fun fr => fr.events.map (fun e => (e.type, e.familyId))) =
      some [(EventType.LEFT, 2)] ∧
    ((runSimulation poolSingle famsWaitBeforeDepart).get? 11).map
        (fun fr => fr.seats.map Seat.occupiedBy) = some [some 1] ∧
    ((runSimulation poolSingle famsWaitBeforeDepart).get? 11).map
        (fun fr => fr.events.map (fun e => (e.type, e.familyId))) =
      some [(EventType.SEATED, 1)] := by
  decide

/-- Claim C4 counterexample: at tick 0 family 2 has arrived and cannot be
matched (family 1 holds the only seat), so it sits in the frame's waiting
queue — but the frame's events are exactly two Arrivals and one Seated, and
no frame of the whole run ever contains a Conflict or Waiting event. -/
theorem C4_counterexample :
    ((runSimulation poolSingle famsTwoAtZero).get? 0).map
        (fun fr => fr.waitingQueue.map Customer.familyId) = some [2] ∧
    ((runSimulation poolSingle famsTwoAtZero).get? 0).map
        (fun fr => fr.events.map SimulationEvent.type) =
      some [EventType.ARRIVAL, EventType.ARRIVAL, EventType.SEATED] ∧
    ((runSimulation poolSingle famsTwoAtZero).all
        (fun fr => fr.events.all
          (fun e => !(e.type == EventType.CONFLICT) && !(e.type == EventType.WAITING)))) = true := by
  decide

/-- Claim C5 counterexample: both families need one baby chair each and
arrive simultaneously; the engine consults no global baby-chair cap (there is
no `babyChairsMax` input to the scheduler), so at tick 0 both families are
seated at the two baby-capable tables and nobody waits — contradicting the
claimed Scenario D outcome under `babyChairsMax = 1`. -/
theorem C5_counterexample :
    (famsTwoBabies.all (fun c => c.needsBabyChair && (c.arrivalTime == 0))) = true ∧
    ((runSimulation poolTwoBaby famsTwoBabies).get? 0).map
        (fun fr => fr.seats.map (fun s => (s.occupiedBy, s.isBabyChairAttached))) =
      some [(some 1, true), (some 2, true)] ∧
    ((runSimulation poolTwoBaby famsTwoBabies).get? 0).map
        (fun fr => fr.waitingQueue.length) = some 0 := by
  decide

/-- Claim C6 counterexample: family 2 is seated at tick 60 with dining
duration 60, so its departure time 120 lies beyond the horizon (maxTime is
100); the final frame still shows it occupying the seat, the final waiting
queue is empty, and no frame ever contains a Left event for family 2 — the
family ends the run still Seated, neither Left nor Waiting. -/
theorem C6_counterexample :
    maxTime famsLongDinners = 100 ∧
    ((runSimulation poolSingle famsLongDinners).getLast?).map SimulationFrame.timestamp =
      some 100 ∧
    ((runSimulation poolSingle famsLongDinners).getLast?).map
        (fun fr => fr.seats.map Seat.occupiedBy) = some [some 2] ∧
    ((runSimulation poolSingle famsLongDinners).getLast?).map
        (fun fr => fr.waitingQueue.length) = some 0 ∧
    ((runSimulation poolSingle famsLongDinners).all
        (fun fr => fr.events.all
          (fun e => !(e.type == EventType.LEFT && e.familyId == 2)))) = true := by
  decide

end SushiSync
